import Mathlib

/-!
Verification development for the image-printer repository: a browser-based
visual editor composing card layouts (image, border, texts, QR stickers)
and rasterizing them into a combined print canvas.

The definitions below are shallow embeddings of the TypeScript source:
  - the per-card editor data model and its mutation handlers (App revisions),
  - the active-slot dispatch of `setActiveState`,
  - a reference-heap model of the slot-to-state record,
  - the template store (`saveTemplate` / `loadTemplate`),
  - the image-fit computation of the `Editor` component,
  - the print-preparation pipelines (`preparePrintContent` of the later App
    revision, `onBeforeGetContent` of the earlier one), including their
    event traces, capture parameters, destination geometry and abort paths.

JavaScript numbers are modelled as rationals, `Date.now()` as a natural
number supplied by the environment, and asynchronous captures as events in
a single-threaded trace (issue / resolve / draw), matching the await
semantics of the source.
-/

/-- The four fixed card slot keys of the editor state record. -/
inductive Slot where
  | topLeft
  | topRight
  | bottomLeft
  | bottomRight
deriving DecidableEq, Repr

/-- The layout mode union type of the App component. -/
inductive LayoutMode where
  | current
  | twoByThree
  | fourCards
  | fourCardsPortrait
deriving DecidableEq, Repr

/-- TextElement of the later App revision (optional fontStyle field). -/
structure TextElement where
  id : String
  x : ℚ
  y : ℚ
  content : String
  fontSize : ℚ
  fontFamily : String
  fill : String
  fontStyle : Option String := none
deriving DecidableEq, Repr

/-- QrCodeElement: a generated QR raster placed on the card. -/
structure QrCodeElement where
  id : String
  x : ℚ
  y : ℚ
  dataUrl : String
  size : ℚ
deriving DecidableEq, Repr

/-- EditorState: the per-card editable state. -/
structure EditorState where
  imageDataUrl : Option String
  borderColor : String
  borderThickness : ℚ
  cornerRadius : ℚ
  texts : List TextElement
  qrCodes : List QrCodeElement
  scale : ℚ
  rotation : ℚ
  defaultTextContent : String
  defaultTextFontSize : ℚ
  defaultTextColor : String
deriving DecidableEq, Repr

/-- initialEditorState constant of the source. -/
def initialEditorState : EditorState :=
  { imageDataUrl := none
    borderColor := "#000000"
    borderThickness := 0
    cornerRadius := 0
    texts := []
    qrCodes := []
    scale := 1
    rotation := 0
    defaultTextContent := "New Text"
    defaultTextFontSize := 20
    defaultTextColor := "#FF0000" }

/-- Canvas margins state (global, not per-card) of the later App revision. -/
structure CanvasMargins where
  top : ℚ
  bottom : ℚ
  left : ℚ
  right : ℚ
deriving DecidableEq, Repr

/-- Element id template literal of the add handlers:
the source builds ids with a tag, the current collection length, and
the value of Date.now at creation. -/
def mkElementId (tag : String) (count : Nat) (now : Nat) : String :=
  tag ++ "-" ++ toString count ++ "-" ++ toString now

/-- One UI mutation, with the external inputs each handler receives
(uploaded data URLs, generated QR data URLs, Date.now values). -/
inductive Mutation where
  | imageUpload (dataUrl : String)
  | removeImage
  | borderColor (color : String)
  | borderThickness (thickness : ℚ)
  | cornerRadius (radius : ℚ)
  | scaleChange (s : ℚ)
  | rotationChange (r : ℚ)
  | addText (content : String) (now : Nat)
  | textDragEnd (id : String) (x : ℚ) (y : ℚ)
  | editText (id : String) (content : String)
  | toggleTextBold (id : String)
  | removeText (id : String)
  | defaultTextContent (content : String)
  | defaultTextFontSize (size : ℚ)
  | defaultTextColor (color : String)
  | addQrCode (dataUrl : String) (now : Nat)
  | qrCodeDragEnd (id : String) (x : ℚ) (y : ℚ)
  | removeQrCode (id : String)
deriving DecidableEq, Repr

/-- The pure state updater each mutation handler passes to setActiveState,
transcribed handler by handler from the source. -/
def applyMutation : Mutation → EditorState → EditorState
  | .imageUpload dataUrl, prev => { prev with imageDataUrl := some dataUrl }
  | .removeImage, prev => { prev with imageDataUrl := none }
  | .borderColor color, prev => { prev with borderColor := color }
  | .borderThickness thickness, prev => { prev with borderThickness := thickness }
  | .cornerRadius radius, prev => { prev with cornerRadius := radius }
  | .scaleChange s, prev => { prev with scale := s }
  | .rotationChange r, prev => { prev with rotation := r }
  | .addText content now, prev =>
      let newText : TextElement :=
        { id := mkElementId "text" prev.texts.length now
          x := 50
          y := 50
          content := content
          fontSize := prev.defaultTextFontSize
          fontFamily := "Arial"
          fill := prev.defaultTextColor }
      { prev with texts := prev.texts ++ [newText] }
  | .textDragEnd id newX newY, prev =>
      { prev with texts := prev.texts.map fun t =>
          if t.id = id then { t with x := newX, y := newY } else t }
  | .editText id newContent, prev =>
      { prev with texts := prev.texts.map fun t =>
          if t.id = id then { t with content := newContent } else t }
  | .toggleTextBold id, prev =>
      { prev with texts := prev.texts.map fun t =>
          if t.id = id then
            { t with fontStyle :=
                if t.fontStyle = some "bold" then some "normal" else some "bold" }
          else t }
  | .removeText id, prev =>
      { prev with texts := prev.texts.filter fun t => t.id ≠ id }
  | .defaultTextContent content, prev => { prev with defaultTextContent := content }
  | .defaultTextFontSize size, prev => { prev with defaultTextFontSize := size }
  | .defaultTextColor color, prev => { prev with defaultTextColor := color }
  | .addQrCode dataUrl now, prev =>
      let newQrCode : QrCodeElement :=
        { id := mkElementId "qrcode" prev.qrCodes.length now
          x := 100
          y := 100
          dataUrl := dataUrl
          size := 100 }
      { prev with qrCodes := prev.qrCodes ++ [newQrCode] }
  | .qrCodeDragEnd id newX newY, prev =>
      { prev with qrCodes := prev.qrCodes.map fun qr =>
          if qr.id = id then { qr with x := newX, y := newY } else qr }
  | .removeQrCode id, prev =>
      { prev with qrCodes := prev.qrCodes.filter fun qr => qr.id ≠ id }

/-- The active-slot resolution of setActiveState: single layout always
routes to top-left; the 2x3 layout maps bottom slots back to top-left;
the four-card layouts use the selected editor directly. -/
def resolveEditorKey : LayoutMode → Slot → Slot
  | .current, _ => .topLeft
  | .twoByThree, active =>
      if active = Slot.topLeft ∨ active = Slot.topRight then active else .topLeft
  | .fourCards, active => active
  | .fourCardsPortrait, active => active

/-- setActiveState: resolves the active slot and replaces only that entry
of the slot-to-state record with the updated state. -/
def setActiveState (mode : LayoutMode) (active : Slot)
    (update : EditorState → EditorState)
    (prev : Slot → EditorState) : Slot → EditorState :=
  let editorKey := resolveEditorKey mode active
  fun s => if s = editorKey then update (prev editorKey) else prev s

/-- C4: applying any mutation handler through setActiveState leaves every
slot other than the resolved active slot with its previous state. -/
theorem setActiveState_frame (mode : LayoutMode) (active : Slot) (edit : Mutation)
    (states : Slot → EditorState) (s : Slot)
    (h : s ≠ resolveEditorKey mode active) :
    setActiveState mode active (applyMutation edit) states s = states s := by
  simp [setActiveState, h]

/-- Witness for C4: a border-color change routed to top-left in 2x3 mode
leaves the top-right slot untouched. -/
theorem setActiveState_frame_witness :
    Slot.topRight ≠ resolveEditorKey LayoutMode.twoByThree Slot.topLeft ∧
    setActiveState LayoutMode.twoByThree Slot.topLeft
      (applyMutation (Mutation.borderColor "#ffffff"))
      (fun _ => initialEditorState) Slot.topRight =
      (fun _ => initialEditorState : Slot → EditorState) Slot.topRight :=
  ⟨by decide,
   setActiveState_frame LayoutMode.twoByThree Slot.topLeft
     (Mutation.borderColor "#ffffff") (fun _ => initialEditorState)
     Slot.topRight (by decide)⟩

/-! ## Reference-heap model of the editorStates record (C9)

At startup the source assigns the single object initialEditorState to all
four slot keys. Each handler builds a fresh object from the previous state
via object spread and never writes through the old reference. We model
object identity explicitly: a heap of immutable allocated states, indexed
by allocation order, and a slot-to-reference table. A dispatch allocates a
fresh cell and repoints only the resolved slot. -/

/-- One dispatched UI edit: the layout mode and selected editor at the
time of the event, and the mutation performed. -/
structure AppOp where
  mode : LayoutMode
  active : Slot
  edit : Mutation
deriving DecidableEq, Repr

/-- The heap of allocated editor states plus the slot reference table. -/
structure RefMapState where
  heap : List EditorState
  slotRef : Slot → Nat

/-- Startup: one shared allocation referenced by all four slots. -/
def initialRefMapState : RefMapState :=
  { heap := [initialEditorState], slotRef := fun _ => 0 }

/-- The state currently observable through a slot. -/
def observeSlot (s : Slot) (M : RefMapState) : EditorState :=
  M.heap.getD (M.slotRef s) initialEditorState

/-- Dispatch one edit: read the resolved slot, allocate the freshly built
state (object spread constructs a new object), repoint only that slot. -/
def dispatchMutation (op : AppOp) (M : RefMapState) : RefMapState :=
  let key := resolveEditorKey op.mode op.active
  let prevState := M.heap.getD (M.slotRef key) initialEditorState
  { heap := M.heap ++ [applyMutation op.edit prevState]
    slotRef := fun s => if s = key then M.heap.length else M.slotRef s }

/-- Run a sequence of edits from startup. -/
def runMutations (ops : List AppOp) (M : RefMapState) : RefMapState :=
  ops.foldl (fun m op => dispatchMutation op m) M

/-- The purely per-slot history: the fold of exactly those mutations that
resolve to the given slot, over the shared initial state. -/
def slotHistory (s : Slot) (ops : List AppOp) : EditorState :=
  ops.foldl
    (fun st op =>
      if resolveEditorKey op.mode op.active = s then applyMutation op.edit st
      else st)
    initialEditorState

lemma getD_append_lt {α : Type _} (l l' : List α) (i : Nat) (d : α)
    (h : i < l.length) : (l ++ l').getD i d = l.getD i d := by
  simp [List.getD_eq_getElem?_getD, List.getElem?_append_left h]

lemma getD_concat_length {α : Type _} (l : List α) (x d : α) :
    (l ++ [x]).getD l.length d = x := by
  simp [List.getD_eq_getElem?_getD]

lemma dispatchMutation_wf (op : AppOp) (M : RefMapState)
    (h : ∀ s, M.slotRef s < M.heap.length) :
    ∀ s, (dispatchMutation op M).slotRef s < (dispatchMutation op M).heap.length := by
  intro s
  simp only [dispatchMutation, List.length_append, List.length_cons, List.length_nil]
  split
  · omega
  · exact lt_of_lt_of_le (h s) (by omega)

lemma observeSlot_dispatch (op : AppOp) (M : RefMapState)
    (h : ∀ s, M.slotRef s < M.heap.length) (s : Slot) :
    observeSlot s (dispatchMutation op M) =
      if resolveEditorKey op.mode op.active = s then
        applyMutation op.edit (observeSlot s M)
      else observeSlot s M := by
  by_cases hs : s = resolveEditorKey op.mode op.active
  · subst hs
    simp only [observeSlot, dispatchMutation, if_pos rfl, if_pos]
    exact getD_concat_length _ _ _
  · rw [if_neg (fun he => hs he.symm)]
    simp only [observeSlot, dispatchMutation, if_neg hs]
    exact getD_append_lt _ _ _ _ (h s)

lemma runMutations_observe (ops : List AppOp) :
    ∀ (M : RefMapState), (∀ s, M.slotRef s < M.heap.length) → ∀ s,
      observeSlot s (runMutations ops M) =
        ops.foldl
          (fun st op =>
            if resolveEditorKey op.mode op.active = s then applyMutation op.edit st
            else st)
          (observeSlot s M) := by
  induction ops with
  | nil => intro M _ s; rfl
  | cons op rest ih =>
      intro M h s
      show observeSlot s (runMutations rest (dispatchMutation op M)) = _
      rw [ih (dispatchMutation op M) (dispatchMutation_wf op M h) s,
        observeSlot_dispatch op M h s]
      rfl

/-- C9: although all four slots start from one shared allocation, every
dispatch allocates a fresh state object and repoints only the resolved
slot, so the state observable through any slot equals the fold of exactly
that slot's own mutations over the shared initial state: edits applied
through one slot are never observable through another. -/
theorem copy_on_write_per_slot (ops : List AppOp) (s : Slot) :
    observeSlot s (runMutations ops initialRefMapState) = slotHistory s ops := by
  have h0 : ∀ t, initialRefMapState.slotRef t < initialRefMapState.heap.length := by
    intro t; simp [initialRefMapState]
  rw [runMutations_observe ops initialRefMapState h0 s]
  rfl

/-! ## Template store (C5)

The later App revision persists, besides the six styling fields, the
card's text elements (`settingsToSave` keeps everything except
imageDataUrl, scale, rotation and qrCodes). Saving upserts by name into
the template collection; loading merges the stored fields into the active
card, leaving image, scale, rotation and QR stickers from the previous
state. The thumbnail raster produced by generateThumbnail is an external
canvas rendering; we take it as an input string. -/

/-- Template record of the later App revision (includes texts). -/
structure Template where
  name : String
  borderColor : String
  borderThickness : ℚ
  cornerRadius : ℚ
  defaultTextContent : String
  defaultTextFontSize : ℚ
  defaultTextColor : String
  texts : List TextElement
  thumbnailDataUrl : Option String := none
deriving DecidableEq, Repr

/-- The template object saveTemplate builds from the active state:
name, the rest-spread of the state minus image, scale, rotation and QR
codes, and the generated thumbnail. -/
def mkTemplate (name : String) (thumbnailDataUrl : String)
    (active : EditorState) : Template :=
  { name := name
    borderColor := active.borderColor
    borderThickness := active.borderThickness
    cornerRadius := active.cornerRadius
    defaultTextContent := active.defaultTextContent
    defaultTextFontSize := active.defaultTextFontSize
    defaultTextColor := active.defaultTextColor
    texts := active.texts
    thumbnailDataUrl := some thumbnailDataUrl }

/-- The setTemplates updater of saveTemplate: replace the first entry
with the same name, else append. -/
def upsertTemplate (tpl : Template) (prev : List Template) : List Template :=
  match prev.findIdx? (fun t => t.name == tpl.name) with
  | some i => prev.set i tpl
  | none => prev ++ [tpl]

/-- saveTemplate: rejects an empty name (alert + early return modelled as
none), otherwise upserts the built template into the collection. -/
def saveTemplate (name : String) (thumbnailDataUrl : String)
    (active : EditorState) (prev : List Template) : Option (List Template) :=
  if name = "" then none
  else some (upsertTemplate (mkTemplate name thumbnailDataUrl active) prev)

/-- Selecting a stored template by its name key. -/
def findTemplate (name : String) (templates : List Template) : Option Template :=
  templates.find? (fun t => t.name == name)

/-- loadTemplate: merge the stored styling fields and texts into the
previous state. (The defensive JS fallback of an empty texts list only
applies to records missing the field, which templates built by
saveTemplate never are.) -/
def loadTemplate (template : Template) (prev : EditorState) : EditorState :=
  { prev with
    borderColor := template.borderColor
    borderThickness := template.borderThickness
    cornerRadius := template.cornerRadius
    defaultTextContent := template.defaultTextContent
    defaultTextFontSize := template.defaultTextFontSize
    defaultTextColor := template.defaultTextColor
    texts := template.texts }

lemma findTemplate_upsertTemplate (tpl : Template) (prev : List Template) :
    findTemplate tpl.name (upsertTemplate tpl prev) = some tpl := by
  induction prev with
  | nil => simp [upsertTemplate, findTemplate]
  | cons hd tl ih =>
      by_cases hn : hd.name = tpl.name
      · have hb : (hd.name == tpl.name) = true := beq_iff_eq.mpr hn
        simp [upsertTemplate, findTemplate, List.findIdx?_cons, hb]
      · have hb : (hd.name == tpl.name) = false := by
          rw [beq_eq_false_iff_ne]; exact hn
        cases hf : List.findIdx? (fun t => t.name == tpl.name) tl with
        | some i =>
            have hu : upsertTemplate tpl (hd :: tl) = hd :: tl.set i tpl := by
              rw [upsertTemplate, List.findIdx?_cons, hb]
              simp [hf]
            have hu' : upsertTemplate tpl tl = tl.set i tpl := by
              rw [upsertTemplate, hf]
            rw [hu, findTemplate, List.find?_cons_of_neg _ (by simp [hb]),
              ← findTemplate, ← hu', ih]
        | none =>
            have hu : upsertTemplate tpl (hd :: tl) = hd :: (tl ++ [tpl]) := by
              rw [upsertTemplate, List.findIdx?_cons, hb]
              simp [hf]
            have hu' : upsertTemplate tpl tl = tl ++ [tpl] := by
              rw [upsertTemplate, hf]
            rw [hu, findTemplate, List.find?_cons_of_neg _ (by simp [hb]),
              ← findTemplate, ← hu', ih]

/-- C5: saving a non-empty-named template from a card state and loading
the template stored under that name back into the same card restores
every styling field of the Template schema and leaves the card's image,
texts and QR stickers exactly as they were: the state is unchanged. -/
theorem saveTemplate_loadTemplate_roundTrip (name thumbnailDataUrl : String)
    (s : EditorState) (templates : List Template) (h : name ≠ "") :
    ∃ saved, saveTemplate name thumbnailDataUrl s templates = some saved ∧
      ∃ tpl, findTemplate name saved = some tpl ∧ loadTemplate tpl s = s := by
  refine ⟨upsertTemplate (mkTemplate name thumbnailDataUrl s) templates, ?_, ?_⟩
  · rw [saveTemplate, if_neg h]
  · exact ⟨mkTemplate name thumbnailDataUrl s,
      findTemplate_upsertTemplate (mkTemplate name thumbnailDataUrl s) templates,
      rfl⟩

/-- Witness for C5 at a concrete card and template name. -/
theorem saveTemplate_loadTemplate_roundTrip_witness :
    "Postcard" ≠ "" ∧
    ∃ saved, saveTemplate "Postcard" "thumb" initialEditorState [] = some saved ∧
      ∃ tpl, findTemplate "Postcard" saved = some tpl ∧
        loadTemplate tpl initialEditorState = initialEditorState :=
  ⟨by decide,
   saveTemplate_loadTemplate_roundTrip "Postcard" "thumb" initialEditorState []
     (by decide)⟩

/-! ## Image fit (C7)

The Editor component recomputes the displayed image dimensions whenever
the image or canvas size changes: full canvas width at the image aspect
ratio, switching to full canvas height when that overflows vertically. -/

/-- The image dimensions state set by the fit effect. -/
structure FittedDims where
  width : ℚ
  height : ℚ
deriving DecidableEq, Repr

/-- The fit computation of the Editor useEffect. -/
def fitImageDimensions (imageWidth imageHeight canvasWidth canvasHeight : ℚ) :
    FittedDims :=
  let aspectRatio := imageWidth / imageHeight
  let newWidth := canvasWidth
  let newHeight := canvasWidth / aspectRatio
  if newHeight > canvasHeight then
    { width := canvasHeight * aspectRatio, height := canvasHeight }
  else
    { width := newWidth, height := newHeight }

/-- C7: for a loaded image with positive dimensions on a positive canvas,
the fit computation follows the claimed branch equations, the result fits
inside the canvas, preserves the image aspect ratio, and re-running the
computation with the same inputs yields the same dimensions. -/
theorem fitImageDimensions_spec (imageWidth imageHeight canvasWidth canvasHeight : ℚ)
    (hiw : 0 < imageWidth) (hih : 0 < imageHeight) :
    (¬ canvasWidth / (imageWidth / imageHeight) > canvasHeight →
      fitImageDimensions imageWidth imageHeight canvasWidth canvasHeight =
        ⟨canvasWidth, canvasWidth / (imageWidth / imageHeight)⟩) ∧
    (canvasWidth / (imageWidth / imageHeight) > canvasHeight →
      fitImageDimensions imageWidth imageHeight canvasWidth canvasHeight =
        ⟨canvasHeight * (imageWidth / imageHeight), canvasHeight⟩) ∧
    (fitImageDimensions imageWidth imageHeight canvasWidth canvasHeight).width ≤
      canvasWidth ∧
    (fitImageDimensions imageWidth imageHeight canvasWidth canvasHeight).height ≤
      canvasHeight ∧
    (fitImageDimensions imageWidth imageHeight canvasWidth canvasHeight).width *
        imageHeight =
      (fitImageDimensions imageWidth imageHeight canvasWidth canvasHeight).height *
        imageWidth ∧
    fitImageDimensions imageWidth imageHeight canvasWidth canvasHeight =
      fitImageDimensions imageWidth imageHeight canvasWidth canvasHeight := by
  have har : 0 < imageWidth / imageHeight := div_pos hiw hih
  by_cases hgt : canvasWidth / (imageWidth / imageHeight) > canvasHeight
  · have hval : fitImageDimensions imageWidth imageHeight canvasWidth canvasHeight =
        ⟨canvasHeight * (imageWidth / imageHeight), canvasHeight⟩ := by
      rw [fitImageDimensions, if_pos hgt]
    refine ⟨fun hc => absurd hgt hc, fun _ => hval, ?_, ?_, ?_, rfl⟩
    · rw [hval]
      exact le_of_lt ((lt_div_iff₀ har).mp hgt)
    · rw [hval]
    · rw [hval]
      field_simp
  · have hval : fitImageDimensions imageWidth imageHeight canvasWidth canvasHeight =
        ⟨canvasWidth, canvasWidth / (imageWidth / imageHeight)⟩ := by
      rw [fitImageDimensions, if_neg hgt]
    refine ⟨fun _ => hval, fun hc => absurd hc hgt, ?_, ?_, ?_, rfl⟩
    · rw [hval]
    · rw [hval]
      exact le_of_not_lt hgt
    · rw [hval]
      field_simp

/-- Witness for C7: an 800 x 600 image fitted into a 200 x 400 canvas. -/
theorem fitImageDimensions_spec_witness :
    (0 : ℚ) < 800 ∧ (0 : ℚ) < 600 ∧
    ((¬ (200 : ℚ) / (800 / 600) > 400 →
      fitImageDimensions 800 600 200 400 = ⟨200, 200 / (800 / 600)⟩) ∧
    ((200 : ℚ) / (800 / 600) > 400 →
      fitImageDimensions 800 600 200 400 = ⟨400 * (800 / 600), 400⟩) ∧
    (fitImageDimensions 800 600 200 400).width ≤ 200 ∧
    (fitImageDimensions 800 600 200 400).height ≤ 400 ∧
    (fitImageDimensions 800 600 200 400).width * 600 =
      (fitImageDimensions 800 600 200 400).height * 800 ∧
    fitImageDimensions 800 600 200 400 = fitImageDimensions 800 600 200 400) :=
  ⟨by norm_num, by norm_num,
   fitImageDimensions_spec 800 600 200 400 (by norm_num) (by norm_num)⟩

/-! ## Element-id strings (C6)

The add handlers build ids from the collection length and Date.now via a
template literal. To reason about collisions we relate the decimal
rendering of naturals (Nat.repr, used by toString inside the literal) to
a structural digit list, prove it injective and dash-free, and derive
injectivity of the full id encoding. -/

/-- Structural decimal digit list of a natural (most significant first),
mirroring the fuelled Nat.toDigitsCore. -/
def natDigits (n : Nat) : List Char :=
  if n < 10 then [Nat.digitChar n]
  else natDigits (n / 10) ++ [Nat.digitChar (n % 10)]
decreasing_by exact Nat.div_lt_self (by omega) (by omega)

lemma toDigitsCore_eq :
    ∀ (fuel n : Nat) (acc : List Char), n < fuel →
      Nat.toDigitsCore 10 fuel n acc = natDigits n ++ acc := by
  intro fuel
  induction fuel with
  | zero => intro n acc h; omega
  | succ f ih =>
      intro n acc h
      by_cases h10 : n / 10 = 0
      · have hn10 : n < 10 := by omega
        have hmod : n % 10 = n := Nat.mod_eq_of_lt hn10
        rw [Nat.toDigitsCore, if_pos h10, natDigits, if_pos hn10, hmod]
        rfl
      · have hge : 10 ≤ n := by
          by_contra hc
          exact h10 (Nat.div_eq_of_lt (by omega))
        have hlt : n / 10 < f := by
          have : n / 10 < n := Nat.div_lt_self (by omega) (by omega)
          omega
        have hstep : natDigits n = natDigits (n / 10) ++ [Nat.digitChar (n % 10)] := by
          rw [natDigits, if_neg (by omega)]
        rw [Nat.toDigitsCore, if_neg h10, ih (n / 10) _ hlt, hstep,
          List.append_assoc]
        rfl

lemma digitChar_ne_dash (d : Nat) : Nat.digitChar d ≠ '-' := by
  match d with
  | 0 | 1 | 2 | 3 | 4 | 5 | 6 | 7 | 8 | 9 | 10 | 11 | 12 | 13 | 14 | 15 => decide
  | n + 16 =>
      have hstar : Nat.digitChar (n + 16) = '*' := by
        unfold Nat.digitChar
        repeat rw [if_neg (by omega)]
      rw [hstar]
      decide

lemma digitChar_toNat (d : Nat) (h : d < 10) : (Nat.digitChar d).toNat = 48 + d := by
  match d, h with
  | 0, _ | 1, _ | 2, _ | 3, _ | 4, _ | 5, _ | 6, _ | 7, _ | 8, _ | 9, _ => decide
  | n + 10, h => exact absurd h (by omega)

/-- Decimal value of a digit list. -/
def digitsVal (l : List Char) : Nat :=
  l.foldl (fun acc c => 10 * acc + (c.toNat - 48)) 0

lemma foldl_digits_append (l : List Char) (c : Char) :
    digitsVal (l ++ [c]) = 10 * digitsVal l + (c.toNat - 48) := by
  simp [digitsVal, List.foldl_append]

lemma digitsVal_natDigits (n : Nat) : digitsVal (natDigits n) = n := by
  induction n using Nat.strong_induction_on with
  | _ n ih =>
      by_cases h : n < 10
      · rw [natDigits, if_pos h]
        simp [digitsVal, digitChar_toNat n h]
      · rw [natDigits, if_neg h, foldl_digits_append,
          ih (n / 10) (Nat.div_lt_self (by omega) (by omega)),
          digitChar_toNat _ (Nat.mod_lt n (by omega))]
        omega

lemma natDigits_inj {a b : Nat} (h : natDigits a = natDigits b) : a = b := by
  have := congrArg digitsVal h
  rwa [digitsVal_natDigits, digitsVal_natDigits] at this

lemma dash_not_mem_natDigits (n : Nat) : '-' ∉ natDigits n := by
  induction n using Nat.strong_induction_on with
  | _ n ih =>
      by_cases h : n < 10
      · rw [natDigits, if_pos h]
        simp
        exact fun hc => digitChar_ne_dash n hc.symm
      · rw [natDigits, if_neg h]
        simp
        refine ⟨ih (n / 10) (Nat.div_lt_self (by omega) (by omega)), ?_⟩
        exact fun hc => digitChar_ne_dash (n % 10) hc.symm

lemma append_sep_inj :
    ∀ (A C B D : List Char), '-' ∉ A → '-' ∉ C →
      A ++ '-' :: B = C ++ '-' :: D → A = C ∧ B = D := by
  intro A
  induction A with
  | nil =>
      intro C B D _ hC h
      cases C with
      | nil =>
          simp only [List.nil_append] at h
          exact ⟨rfl, (List.cons.inj h).2⟩
      | cons c cs =>
          simp only [List.nil_append, List.cons_append] at h
          obtain ⟨hc, _⟩ := List.cons.inj h
          exact absurd (hc ▸ List.mem_cons_self c cs) hC
  | cons a as ih =>
      intro C B D hA hC h
      cases C with
      | nil =>
          simp only [List.cons_append, List.nil_append] at h
          obtain ⟨hc, _⟩ := List.cons.inj h
          exact absurd (hc ▸ List.mem_cons_self a as) hA
      | cons c cs =>
          simp only [List.cons_append] at h
          obtain ⟨hac, htl⟩ := List.cons.inj h
          have hA' : '-' ∉ as := fun hm => hA (List.mem_cons_of_mem a hm)
          have hC' : '-' ∉ cs := fun hm => hC (List.mem_cons_of_mem c hm)
          obtain ⟨h1, h2⟩ := ih cs B D hA' hC' htl
          exact ⟨by rw [hac, h1], h2⟩

lemma toString_nat_eq (n : Nat) : toString n = Nat.repr n := rfl

lemma natRepr_data (n : Nat) : (Nat.repr n).data = natDigits n := by
  show (Nat.toDigits 10 n).asString.data = natDigits n
  rw [Nat.toDigits, toDigitsCore_eq (n + 1) n [] (Nat.lt_succ_self n)]
  simp [List.asString]

/-- Injectivity of the id template literal for a fixed tag: equal rendered
ids force equal collection lengths and equal timestamps. -/
lemma mkElementId_inj (tag : String) (a b c d : Nat)
    (h : mkElementId tag a b = mkElementId tag c d) : a = c ∧ b = d := by
  have hdata := congrArg String.data h
  simp only [mkElementId, toString_nat_eq, String.data_append, natRepr_data,
    List.append_assoc] at hdata
  have hsep : natDigits a ++ '-' :: natDigits b = natDigits c ++ '-' :: natDigits d := by
    have h1 := List.append_cancel_left hdata
    have h2 := (List.cons.inj h1).2
    simpa using h2
  obtain ⟨hAC, hBD⟩ := append_sep_inj _ _ _ _ (dash_not_mem_natDigits a)
    (dash_not_mem_natDigits c) hsep
  exact ⟨natDigits_inj hAC, natDigits_inj hBD⟩

/-! ## Add/remove element operation sequences (C6) -/

/-- The four element operations of the claim: add-text, add-QR,
remove-text, remove-QR, each with the external inputs it consumes. -/
inductive ElementOp where
  | addText (content : String) (now : Nat)
  | removeText (id : String)
  | addQrCode (dataUrl : String) (now : Nat)
  | removeQrCode (id : String)
deriving DecidableEq, Repr

/-- The mutation an element operation dispatches. -/
def ElementOp.toMutation : ElementOp → Mutation
  | .addText content now => .addText content now
  | .removeText id => .removeText id
  | .addQrCode dataUrl now => .addQrCode dataUrl now
  | .removeQrCode id => .removeQrCode id

/-- Apply a sequence of element operations to one card state. -/
def applyElementOps (ops : List ElementOp) (s : EditorState) : EditorState :=
  ops.foldl (fun st op => applyMutation op.toMutation st) s

/-- The Date.now value an add operation observes, if any. -/
def ElementOp.stamp? : ElementOp → Option Nat
  | .addText _ now => some now
  | .addQrCode _ now => some now
  | _ => none

/-- The Date.now values of the add operations of a sequence, in order. -/
def addStamps (ops : List ElementOp) : List Nat :=
  ops.filterMap ElementOp.stamp?

/-- Whether an operation removes an element. -/
def ElementOp.isRemoval : ElementOp → Bool
  | .removeText _ => true
  | .removeQrCode _ => true
  | _ => false

/-- A sequence containing no remove operations. -/
def noRemovals (ops : List ElementOp) : Bool :=
  ops.all fun op => ! op.isRemoval

/-- Pairwise distinctness of the element ids of both collections. -/
def UniqueIds (s : EditorState) : Prop :=
  (s.texts.map TextElement.id).Pairwise (fun a b => a ≠ b) ∧
  (s.qrCodes.map QrCodeElement.id).Pairwise (fun a b => a ≠ b)

/-- A remove, then an add, within the same Date.now millisecond: the
collection length reuses the index of a live element. -/
def duplicateIdOps : List ElementOp :=
  [ElementOp.addText "A" 5, ElementOp.addText "B" 5,
   ElementOp.removeText "text-0-5", ElementOp.addText "C" 5]

/-- Counterexample for C6: after the adds and remove of duplicateIdOps
(all sharing Date.now = 5) the final add produces the id text-1-5, which
is already carried by a live element, so the text ids are not pairwise
unique immediately after that add operation. -/
theorem duplicateIdOps_not_unique :
    ¬ UniqueIds (applyElementOps duplicateIdOps initialEditorState) := by
  unfold UniqueIds
  decide

/-- All element ids of both collections were minted with a Date.now value
below the bound. -/
def StampedBelow (b : Nat) (s : EditorState) : Prop :=
  (∀ t ∈ s.texts, ∃ l n, n < b ∧ t.id = mkElementId "text" l n) ∧
  (∀ q ∈ s.qrCodes, ∃ l n, n < b ∧ q.id = mkElementId "qrcode" l n)

lemma StampedBelow.mono {b b' : Nat} {s : EditorState} (h : StampedBelow b s)
    (hb : b ≤ b') : StampedBelow b' s := by
  obtain ⟨ht, hq⟩ := h
  refine ⟨fun t hmem => ?_, fun q hmem => ?_⟩
  · obtain ⟨l, n, hn, he⟩ := ht t hmem
    exact ⟨l, n, by omega, he⟩
  · obtain ⟨l, n, hn, he⟩ := hq q hmem
    exact ⟨l, n, by omega, he⟩

lemma pairwise_ne_concat {l : List String} {x : String}
    (hl : l.Pairwise (fun a b => a ≠ b)) (hx : ∀ y ∈ l, y ≠ x) :
    (l ++ [x]).Pairwise (fun a b => a ≠ b) := by
  rw [List.pairwise_append]
  refine ⟨hl, List.pairwise_singleton _ _, fun a ha b hb => ?_⟩
  rw [List.mem_singleton] at hb
  subst hb
  exact hx a ha

lemma addText_step (content : String) (now b : Nat) (s : EditorState)
    (hS : StampedBelow b s) (hU : UniqueIds s) (hb : b ≤ now) :
    StampedBelow (now + 1) (applyMutation (Mutation.addText content now) s) ∧
      UniqueIds (applyMutation (Mutation.addText content now) s) := by
  obtain ⟨hSt, hSq⟩ := hS
  obtain ⟨hUt, hUq⟩ := hU
  refine ⟨⟨?_, ?_⟩, ?_, ?_⟩
  · intro t ht
    simp only [applyMutation, List.mem_append, List.mem_singleton] at ht
    rcases ht with ht | ht
    · obtain ⟨l, n, hn, he⟩ := hSt t ht
      exact ⟨l, n, by omega, he⟩
    · exact ⟨s.texts.length, now, by omega, by rw [ht]⟩
  · intro q hq
    simp only [applyMutation] at hq
    obtain ⟨l, n, hn, he⟩ := hSq q hq
    exact ⟨l, n, by omega, he⟩
  · simp only [applyMutation, List.map_append, List.map_cons, List.map_nil]
    apply pairwise_ne_concat hUt
    intro y hy hcontra
    rw [List.mem_map] at hy
    obtain ⟨t, htmem, hty⟩ := hy
    obtain ⟨l, n, hn, he⟩ := hSt t htmem
    rw [← hty, he] at hcontra
    obtain ⟨-, hnn⟩ := mkElementId_inj _ _ _ _ _ hcontra
    omega
  · simp only [applyMutation]
    exact hUq

lemma addQrCode_step (dataUrl : String) (now b : Nat) (s : EditorState)
    (hS : StampedBelow b s) (hU : UniqueIds s) (hb : b ≤ now) :
    StampedBelow (now + 1) (applyMutation (Mutation.addQrCode dataUrl now) s) ∧
      UniqueIds (applyMutation (Mutation.addQrCode dataUrl now) s) := by
  obtain ⟨hSt, hSq⟩ := hS
  obtain ⟨hUt, hUq⟩ := hU
  refine ⟨⟨?_, ?_⟩, ?_, ?_⟩
  · intro t ht
    simp only [applyMutation] at ht
    obtain ⟨l, n, hn, he⟩ := hSt t ht
    exact ⟨l, n, by omega, he⟩
  · intro q hq
    simp only [applyMutation, List.mem_append, List.mem_singleton] at hq
    rcases hq with hq | hq
    · obtain ⟨l, n, hn, he⟩ := hSq q hq
      exact ⟨l, n, by omega, he⟩
    · exact ⟨s.qrCodes.length, now, by omega, by rw [hq]⟩
  · simp only [applyMutation]
    exact hUt
  · simp only [applyMutation, List.map_append, List.map_cons, List.map_nil]
    apply pairwise_ne_concat hUq
    intro y hy hcontra
    rw [List.mem_map] at hy
    obtain ⟨q, hqmem, hqy⟩ := hy
    obtain ⟨l, n, hn, he⟩ := hSq q hqmem
    rw [← hqy, he] at hcontra
    obtain ⟨-, hnn⟩ := mkElementId_inj _ _ _ _ _ hcontra
    omega

lemma removeText_step (id : String) (b : Nat) (s : EditorState)
    (hS : StampedBelow b s) (hU : UniqueIds s) :
    StampedBelow b (applyMutation (Mutation.removeText id) s) ∧
      UniqueIds (applyMutation (Mutation.removeText id) s) := by
  obtain ⟨hSt, hSq⟩ := hS
  obtain ⟨hUt, hUq⟩ := hU
  refine ⟨⟨?_, ?_⟩, ?_, ?_⟩
  · intro t ht
    simp only [applyMutation] at ht
    exact hSt t (List.mem_of_mem_filter ht)
  · intro q hq
    simp only [applyMutation] at hq
    exact hSq q hq
  · simp only [applyMutation]
    exact hUt.sublist (List.Sublist.map _ (List.filter_sublist _))
  · simp only [applyMutation]
    exact hUq

lemma removeQrCode_step (id : String) (b : Nat) (s : EditorState)
    (hS : StampedBelow b s) (hU : UniqueIds s) :
    StampedBelow b (applyMutation (Mutation.removeQrCode id) s) ∧
      UniqueIds (applyMutation (Mutation.removeQrCode id) s) := by
  obtain ⟨hSt, hSq⟩ := hS
  obtain ⟨hUt, hUq⟩ := hU
  refine ⟨⟨?_, ?_⟩, ?_, ?_⟩
  · intro t ht
    simp only [applyMutation] at ht
    exact hSt t ht
  · intro q hq
    simp only [applyMutation] at hq
    exact hSq q (List.mem_of_mem_filter hq)
  · simp only [applyMutation]
    exact hUt
  · simp only [applyMutation]
    exact hUq.sublist (List.Sublist.map _ (List.filter_sublist _))

lemma uniqueIds_run_of_stamps :
    ∀ (ops : List ElementOp) (b : Nat) (s : EditorState),
      StampedBelow b s → UniqueIds s →
      (∀ t ∈ addStamps ops, b ≤ t) →
      (addStamps ops).Pairwise (fun a b => a < b) →
      UniqueIds (applyElementOps ops s) := by
  intro ops
  induction ops with
  | nil => intro b s _ hU _ _; exact hU
  | cons op rest ih =>
      intro b s hS hU hge hpw
      show UniqueIds (applyElementOps rest (applyMutation op.toMutation s))
      cases op with
      | addText content now =>
          have hstamps :
              addStamps (ElementOp.addText content now :: rest) =
                now :: addStamps rest := rfl
          rw [hstamps] at hge hpw
          have hbnow : b ≤ now := hge now (List.mem_cons_self _ _)
          obtain ⟨hlt, hpw'⟩ := List.pairwise_cons.mp hpw
          obtain ⟨hS', hU'⟩ := addText_step content now b s hS hU hbnow
          exact ih (now + 1) _ hS' hU' (fun t ht => by have := hlt t ht; omega) hpw'
      | addQrCode dataUrl now =>
          have hstamps :
              addStamps (ElementOp.addQrCode dataUrl now :: rest) =
                now :: addStamps rest := rfl
          rw [hstamps] at hge hpw
          have hbnow : b ≤ now := hge now (List.mem_cons_self _ _)
          obtain ⟨hlt, hpw'⟩ := List.pairwise_cons.mp hpw
          obtain ⟨hS', hU'⟩ := addQrCode_step dataUrl now b s hS hU hbnow
          exact ih (now + 1) _ hS' hU' (fun t ht => by have := hlt t ht; omega) hpw'
      | removeText id =>
          obtain ⟨hS', hU'⟩ := removeText_step id b s hS hU
          exact ih b _ hS' hU' hge hpw
      | removeQrCode id =>
          obtain ⟨hS', hU'⟩ := removeQrCode_step id b s hS hU
          exact ih b _ hS' hU' hge hpw

/-- Every element id carries its own index as the length component:
this holds along any removal-free sequence since the collections only
grow at the end. -/
def IndexedIds (s : EditorState) : Prop :=
  (∀ (i : Nat) (h : i < s.texts.length),
      ∃ n, (s.texts[i]).id = mkElementId "text" i n) ∧
  (∀ (i : Nat) (h : i < s.qrCodes.length),
      ∃ n, (s.qrCodes[i]).id = mkElementId "qrcode" i n)

lemma indexedIds_addText (content : String) (now : Nat) (s : EditorState)
    (hI : IndexedIds s) :
    IndexedIds (applyMutation (Mutation.addText content now) s) := by
  obtain ⟨hIt, hIq⟩ := hI
  constructor
  · intro i h
    simp only [applyMutation, List.length_append, List.length_cons,
      List.length_nil] at h
    by_cases hi : i < s.texts.length
    · obtain ⟨n, hn⟩ := hIt i hi
      refine ⟨n, ?_⟩
      simp only [applyMutation]
      rw [List.getElem_append_left hi]
      exact hn
    · have hieq : i = s.texts.length := by omega
      refine ⟨now, ?_⟩
      simp only [applyMutation]
      rw [List.getElem_concat_length _ _ _ hieq]
      rw [hieq]
  · intro i h
    simp only [applyMutation] at h ⊢
    exact hIq i h

lemma indexedIds_addQrCode (dataUrl : String) (now : Nat) (s : EditorState)
    (hI : IndexedIds s) :
    IndexedIds (applyMutation (Mutation.addQrCode dataUrl now) s) := by
  obtain ⟨hIt, hIq⟩ := hI
  constructor
  · intro i h
    simp only [applyMutation] at h ⊢
    exact hIt i h
  · intro i h
    simp only [applyMutation, List.length_append, List.length_cons,
      List.length_nil] at h
    by_cases hi : i < s.qrCodes.length
    · obtain ⟨n, hn⟩ := hIq i hi
      refine ⟨n, ?_⟩
      simp only [applyMutation]
      rw [List.getElem_append_left hi]
      exact hn
    · have hieq : i = s.qrCodes.length := by omega
      refine ⟨now, ?_⟩
      simp only [applyMutation]
      rw [List.getElem_concat_length _ _ _ hieq]
      rw [hieq]

lemma indexedIds_run :
    ∀ (ops : List ElementOp) (s : EditorState), noRemovals ops = true →
      IndexedIds s → IndexedIds (applyElementOps ops s) := by
  intro ops
  induction ops with
  | nil => intro s _ hI; exact hI
  | cons op rest ih =>
      intro s hnr hI
      have hnr' : noRemovals rest = true ∧ (! op.isRemoval) = true := by
        rw [noRemovals, List.all_cons, Bool.and_eq_true] at hnr
        exact ⟨hnr.2, hnr.1⟩
      show IndexedIds (applyElementOps rest (applyMutation op.toMutation s))
      cases op with
      | addText content now =>
          exact ih _ hnr'.1 (indexedIds_addText content now s hI)
      | addQrCode dataUrl now =>
          exact ih _ hnr'.1 (indexedIds_addQrCode dataUrl now s hI)
      | removeText id => simp [ElementOp.isRemoval] at hnr'
      | removeQrCode id => simp [ElementOp.isRemoval] at hnr'

lemma uniqueIds_of_indexedIds (s : EditorState) (hI : IndexedIds s) :
    UniqueIds s := by
  obtain ⟨hIt, hIq⟩ := hI
  constructor
  · rw [List.pairwise_iff_getElem]
    intro i j hi hj hij
    simp only [List.length_map] at hi hj
    rw [List.getElem_map, List.getElem_map]
    obtain ⟨n, hn⟩ := hIt i hi
    obtain ⟨m, hm⟩ := hIt j hj
    rw [hn, hm]
    intro hc
    obtain ⟨hij', -⟩ := mkElementId_inj _ _ _ _ _ hc
    omega
  · rw [List.pairwise_iff_getElem]
    intro i j hi hj hij
    simp only [List.length_map] at hi hj
    rw [List.getElem_map, List.getElem_map]
    obtain ⟨n, hn⟩ := hIq i hi
    obtain ⟨m, hm⟩ := hIq j hj
    rw [hn, hm]
    intro hc
    obtain ⟨hij', -⟩ := mkElementId_inj _ _ _ _ _ hc
    omega

/-- C6 (amended): along any sequence of add/remove element operations,
the element ids of both collections stay pairwise unique provided the
Date.now stamps of the add operations are strictly increasing, or the
sequence contains no remove operations (in particular rapid successive
adds sharing one Date.now millisecond keep ids unique). With a remove
followed by an add in the same millisecond uniqueness can fail, as the
recorded counterexample shows. -/
theorem elementIds_unique_amended (ops : List ElementOp)
    (h : (addStamps ops).Pairwise (fun a b => a < b) ∨ noRemovals ops = true) :
    UniqueIds (applyElementOps ops initialEditorState) := by
  rcases h with h | h
  · refine uniqueIds_run_of_stamps ops 0 initialEditorState ?_ ?_
      (fun t _ => Nat.zero_le t) h
    · exact ⟨fun t ht => by simp [initialEditorState] at ht,
        fun q hq => by simp [initialEditorState] at hq⟩
    · exact ⟨by simp [initialEditorState], by simp [initialEditorState]⟩
  · refine uniqueIds_of_indexedIds _ (indexedIds_run ops initialEditorState h ?_)
    exact ⟨fun i hi => by simp [initialEditorState] at hi,
      fun i hi => by simp [initialEditorState] at hi⟩

/-- Two adds within the same millisecond, with no removal. -/
def sameTickAdds : List ElementOp :=
  [ElementOp.addText "a" 7, ElementOp.addQrCode "https://example.com" 7]

/-- Witness for the amended C6 at a removal-free same-millisecond input. -/
theorem elementIds_unique_amended_witness :
    ((addStamps sameTickAdds).Pairwise (fun a b => a < b) ∨
      noRemovals sameTickAdds = true) ∧
    UniqueIds (applyElementOps sameTickAdds initialEditorState) :=
  ⟨Or.inr (by decide),
   elementIds_unique_amended sameTickAdds (Or.inr (by decide))⟩

/-! ## Print preparation (C1, C2, C3, C8, C10)

Two revisions exist in the repository. The later one
(preparePrintContent) builds a fresh high-resolution canvas: it scales
the physical page size and the canvas margins by a multiplier of 3,
captures each active stage with toCanvas at that pixelRatio (awaited one
after the other), draws the captured rasters into the margin-inset
content rectangle per layout geometry, and finally swaps the canvas into
the print container. Aborts (missing container, context or stage refs)
return early before any capture, draw or swap, and log nothing.

The earlier revision (onBeforeGetContent) instead temporarily resizes the
live stages to the print card dimensions, captures them with toCanvas at
pixelRatio 2, restores the saved dimensions, and composites into the
persistent hidden combined canvas; its aborts log a console diagnostic.

Asynchrony is modelled by the single-threaded event trace of each run:
issuing a capture, its await resolving, and drawing a raster. -/

def PRINT_ASPECT_RATIO_WIDTH : ℚ := 600
def PRINT_ASPECT_RATIO_HEIGHT : ℚ := 400
def PRINT_PORTRAIT_WIDTH : ℚ := 400
def PRINT_PORTRAIT_HEIGHT : ℚ := 600

/-- An axis-aligned rectangle (position and size). -/
structure Rect where
  x : ℚ
  y : ℚ
  w : ℚ
  h : ℚ
deriving DecidableEq, Repr

/-- Half-open membership of a point in a rectangle. -/
def InRect (r : Rect) (p : ℚ × ℚ) : Prop :=
  r.x ≤ p.1 ∧ p.1 < r.x + r.w ∧ r.y ≤ p.2 ∧ p.2 < r.y + r.h

/-- A capturable rendered surface: one of the four slot stages, or the
dedicated single-layout editor stage. -/
inductive StageRef where
  | slot (s : Slot)
  | editor
deriving DecidableEq, Repr

/-- One step of the preparation trace: a capture is issued, an awaited
capture resolves, or a captured raster is drawn onto the output. -/
inductive PrintEvent where
  | issue (src : StageRef)
  | resolve (src : StageRef)
  | draw (src : StageRef)
deriving DecidableEq, Repr

/-- A drawImage call: source raster and destination rectangle. -/
structure DrawCmd where
  src : StageRef
  rect : Rect
deriving DecidableEq, Repr

/-- A toCanvas capture call of the later revision. -/
structure CaptureCmd where
  src : StageRef
  pixelRatio : ℚ
deriving DecidableEq, Repr

/-- Availability of the external resources preparePrintContent reads. -/
structure PrepEnv where
  printContainer : Bool
  ctxOk : Bool
  stageTopLeft : Bool
  stageTopRight : Bool
  stageBottomLeft : Bool
  stageBottomRight : Bool
  editorStage : Bool
deriving DecidableEq, Repr

/-- Observable outcome of one preparePrintContent run. -/
structure PrepResult where
  canvasWidth : ℚ
  canvasHeight : ℚ
  content : Rect
  captures : List CaptureCmd
  draws : List DrawCmd
  events : List PrintEvent
  containerReplaced : Bool
  diagnostics : List String
deriving DecidableEq, Repr

/-- The outcome of an early return: nothing captured, drawn, swapped or
logged. -/
def emptyPrepResult : PrepResult :=
  { canvasWidth := 0
    canvasHeight := 0
    content := ⟨0, 0, 0, 0⟩
    captures := []
    draws := []
    events := []
    containerReplaced := false
    diagnostics := [] }

/-- Logical print page size per layout mode. -/
def printSize : LayoutMode → ℚ × ℚ
  | .fourCardsPortrait => (PRINT_PORTRAIT_WIDTH, PRINT_PORTRAIT_HEIGHT)
  | _ => (PRINT_ASPECT_RATIO_WIDTH, PRINT_ASPECT_RATIO_HEIGHT)

/-- preparePrintContent of the later App revision, transcribed from the
source: high-res multiplier 3, margins scaled by the multiplier, content
rectangle split per layout mode, captures awaited one after the other,
draws after all captures, container swap at the end. Early returns on a
missing container, 2D context or stage ref produce emptyPrepResult. -/
def preparePrintContent (mode : LayoutMode) (margins : CanvasMargins)
    (env : PrepEnv) : PrepResult :=
  if !env.printContainer then emptyPrepResult
  else
    let printWidth := (printSize mode).1
    let printHeight := (printSize mode).2
    let multiplier : ℚ := 3
    let highResWidth := printWidth * multiplier
    let highResHeight := printHeight * multiplier
    if !env.ctxOk then emptyPrepResult
    else
      let marginLeft := margins.left * multiplier
      let marginRight := margins.right * multiplier
      let marginTop := margins.top * multiplier
      let marginBottom := margins.bottom * multiplier
      let contentWidth := highResWidth - marginLeft - marginRight
      let contentHeight := highResHeight - marginTop - marginBottom
      match mode with
      | .twoByThree =>
          if !(env.stageTopLeft && env.stageTopRight) then emptyPrepResult
          else
            let halfContentWidth := contentWidth / 2
            { canvasWidth := highResWidth
              canvasHeight := highResHeight
              content := ⟨marginLeft, marginTop, contentWidth, contentHeight⟩
              captures :=
                [⟨.slot .topLeft, multiplier⟩, ⟨.slot .topRight, multiplier⟩]
              draws :=
                [⟨.slot .topLeft,
                    ⟨marginLeft, marginTop, halfContentWidth, contentHeight⟩⟩,
                 ⟨.slot .topRight,
                    ⟨marginLeft + halfContentWidth, marginTop, halfContentWidth,
                      contentHeight⟩⟩]
              events :=
                [.issue (.slot .topLeft), .resolve (.slot .topLeft),
                 .issue (.slot .topRight), .resolve (.slot .topRight),
                 .draw (.slot .topLeft), .draw (.slot .topRight)]
              containerReplaced := true
              diagnostics := [] }
      | .fourCards | .fourCardsPortrait =>
          if !(env.stageTopLeft && env.stageTopRight && env.stageBottomLeft &&
              env.stageBottomRight) then emptyPrepResult
          else
            let cardWidth := contentWidth / 2
            let cardHeight := contentHeight / 2
            { canvasWidth := highResWidth
              canvasHeight := highResHeight
              content := ⟨marginLeft, marginTop, contentWidth, contentHeight⟩
              captures :=
                [⟨.slot .topLeft, multiplier⟩, ⟨.slot .topRight, multiplier⟩,
                 ⟨.slot .bottomLeft, multiplier⟩, ⟨.slot .bottomRight, multiplier⟩]
              draws :=
                [⟨.slot .topLeft, ⟨marginLeft, marginTop, cardWidth, cardHeight⟩⟩,
                 ⟨.slot .topRight,
                    ⟨marginLeft + cardWidth, marginTop, cardWidth, cardHeight⟩⟩,
                 ⟨.slot .bottomLeft,
                    ⟨marginLeft, marginTop + cardHeight, cardWidth, cardHeight⟩⟩,
                 ⟨.slot .bottomRight,
                    ⟨marginLeft + cardWidth, marginTop + cardHeight, cardWidth,
                      cardHeight⟩⟩]
              events :=
                [.issue (.slot .topLeft), .resolve (.slot .topLeft),
                 .issue (.slot .topRight), .resolve (.slot .topRight),
                 .issue (.slot .bottomLeft), .resolve (.slot .bottomLeft),
                 .issue (.slot .bottomRight), .resolve (.slot .bottomRight),
                 .draw (.slot .topLeft), .draw (.slot .topRight),
                 .draw (.slot .bottomLeft), .draw (.slot .bottomRight)]
              containerReplaced := true
              diagnostics := [] }
      | .current =>
          if !env.editorStage then emptyPrepResult
          else
            { canvasWidth := highResWidth
              canvasHeight := highResHeight
              content := ⟨marginLeft, marginTop, contentWidth, contentHeight⟩
              captures := [⟨.editor, multiplier⟩]
              draws :=
                [⟨.editor, ⟨marginLeft, marginTop, contentWidth, contentHeight⟩⟩]
              events := [.issue .editor, .resolve .editor, .draw .editor]
              containerReplaced := true
              diagnostics := [] }

/-- The readiness checks preparePrintContent performs for a mode. -/
def prepReady (mode : LayoutMode) (env : PrepEnv) : Bool :=
  env.printContainer && env.ctxOk &&
    (match mode with
     | .twoByThree => env.stageTopLeft && env.stageTopRight
     | .fourCards | .fourCardsPortrait =>
         env.stageTopLeft && env.stageTopRight && env.stageBottomLeft &&
           env.stageBottomRight
     | .current => env.editorStage)

/-- The environment with every resource available. -/
def readyPrepEnv : PrepEnv :=
  { printContainer := true
    ctxOk := true
    stageTopLeft := true
    stageTopRight := true
    stageBottomLeft := true
    stageBottomRight := true
    editorStage := true }

/-- A toCanvas / toDataURL capture of the earlier revision, recording the
stage dimensions it sees and the pixelRatio passed. -/
structure StageCapture where
  src : StageRef
  width : ℚ
  height : ℚ
  pixelRatio : ℚ
deriving DecidableEq, Repr

/-- Availability of the resources onBeforeGetContent reads. -/
structure BgcEnv where
  stageTopLeft : Bool
  stageTopRight : Bool
  stageBottomLeft : Bool
  stageBottomRight : Bool
  combinedCanvas : Bool
  ctxOk : Bool
  editorStage : Bool
deriving DecidableEq, Repr

/-- Observable outcome of one onBeforeGetContent run: the final stage
dimensions, the captures with the dimensions they saw, whether the hidden
combined canvas was cleared and drawn into, and the console diagnostics. -/
structure BgcResult where
  finalDims : Slot → ℚ × ℚ
  finalEditorDims : ℚ × ℚ
  captures : List StageCapture
  canvasCleared : Bool
  draws : List DrawCmd
  diagnostics : List String

/-- Writing one stage's width/height. -/
def updateDims (dims : Slot → ℚ × ℚ) (s : Slot) (v : ℚ × ℚ) :
    Slot → ℚ × ℚ :=
  fun t => if t = s then v else dims t

/-- The abort outcome of the earlier revision: dimensions untouched,
nothing captured or drawn, one console diagnostic. -/
def bgcAbort (dims : Slot → ℚ × ℚ) (editorDims : ℚ × ℚ) (msg : String) :
    BgcResult :=
  { finalDims := dims
    finalEditorDims := editorDims
    captures := []
    canvasCleared := false
    draws := []
    diagnostics := [msg] }

/-- onBeforeGetContent of the earlier App revision: per mode, check the
stage and combined-canvas refs (console.error + return on failure), save
the stage dimensions, resize to the print card dimensions, capture each
stage with toCanvas at pixelRatio 2 (awaited one after the other), restore
the saved dimensions, then clear the combined canvas and draw the
captures; the single layout only resizes the editor stage and waits via
toDataURL (default pixelRatio 1) without touching the combined canvas. -/
def onBeforeGetContent (mode : LayoutMode) (env : BgcEnv)
    (dims : Slot → ℚ × ℚ) (editorDims : ℚ × ℚ) : BgcResult :=
  match mode with
  | .twoByThree =>
      if !(env.stageTopLeft && env.stageTopRight && env.combinedCanvas) then
        bgcAbort dims editorDims
          "Konva stages or combined canvas ref not ready for 2x3 combined print."
      else if !env.ctxOk then
        bgcAbort dims editorDims "Could not get 2D context for combined canvas."
      else
        let originalLeft := dims Slot.topLeft
        let originalRight := dims Slot.topRight
        let cardW := PRINT_ASPECT_RATIO_WIDTH / 2
        let cardH := PRINT_ASPECT_RATIO_HEIGHT
        let dims1 := updateDims dims Slot.topLeft (cardW, cardH)
        let dims2 := updateDims dims1 Slot.topRight (cardW, cardH)
        let leftCapture : StageCapture :=
          ⟨.slot .topLeft, (dims2 Slot.topLeft).1, (dims2 Slot.topLeft).2, 2⟩
        let rightCapture : StageCapture :=
          ⟨.slot .topRight, (dims2 Slot.topRight).1, (dims2 Slot.topRight).2, 2⟩
        let dims3 := updateDims dims2 Slot.topLeft originalLeft
        let dims4 := updateDims dims3 Slot.topRight originalRight
        { finalDims := dims4
          finalEditorDims := editorDims
          captures := [leftCapture, rightCapture]
          canvasCleared := true
          draws :=
            [⟨.slot .topLeft, ⟨0, 0, cardW, cardH⟩⟩,
             ⟨.slot .topRight, ⟨cardW, 0, cardW, cardH⟩⟩]
          diagnostics := [] }
  | .fourCards =>
      if !(env.stageTopLeft && env.stageTopRight && env.stageBottomLeft &&
          env.stageBottomRight && env.combinedCanvas) then
        bgcAbort dims editorDims
          "Konva stages or combined canvas ref not ready for 4 cards print."
      else if !env.ctxOk then
        bgcAbort dims editorDims "Could not get 2D context for combined canvas."
      else
        let originalTl := dims Slot.topLeft
        let originalTr := dims Slot.topRight
        let originalBl := dims Slot.bottomLeft
        let originalBr := dims Slot.bottomRight
        let cardW := PRINT_ASPECT_RATIO_WIDTH / 2
        let cardH := PRINT_ASPECT_RATIO_HEIGHT / 2
        let dims1 := updateDims dims Slot.topLeft (cardW, cardH)
        let dims2 := updateDims dims1 Slot.topRight (cardW, cardH)
        let dims3 := updateDims dims2 Slot.bottomLeft (cardW, cardH)
        let dims4 := updateDims dims3 Slot.bottomRight (cardW, cardH)
        let tlCapture : StageCapture :=
          ⟨.slot .topLeft, (dims4 Slot.topLeft).1, (dims4 Slot.topLeft).2, 2⟩
        let trCapture : StageCapture :=
          ⟨.slot .topRight, (dims4 Slot.topRight).1, (dims4 Slot.topRight).2, 2⟩
        let blCapture : StageCapture :=
          ⟨.slot .bottomLeft, (dims4 Slot.bottomLeft).1,
            (dims4 Slot.bottomLeft).2, 2⟩
        let brCapture : StageCapture :=
          ⟨.slot .bottomRight, (dims4 Slot.bottomRight).1,
            (dims4 Slot.bottomRight).2, 2⟩
        let dims5 := updateDims dims4 Slot.topLeft originalTl
        let dims6 := updateDims dims5 Slot.topRight originalTr
        let dims7 := updateDims dims6 Slot.bottomLeft originalBl
        let dims8 := updateDims dims7 Slot.bottomRight originalBr
        { finalDims := dims8
          finalEditorDims := editorDims
          captures := [tlCapture, trCapture, blCapture, brCapture]
          canvasCleared := true
          draws :=
            [⟨.slot .topLeft, ⟨0, 0, cardW, cardH⟩⟩,
             ⟨.slot .topRight, ⟨cardW, 0, cardW, cardH⟩⟩,
             ⟨.slot .bottomLeft, ⟨0, cardH, cardW, cardH⟩⟩,
             ⟨.slot .bottomRight, ⟨cardW, cardH, cardW, cardH⟩⟩]
          diagnostics := [] }
  | .fourCardsPortrait =>
      if !(env.stageTopLeft && env.stageTopRight && env.stageBottomLeft &&
          env.stageBottomRight && env.combinedCanvas) then
        bgcAbort dims editorDims
          "Konva stages or combined canvas ref not ready for 4 cards portrait print."
      else if !env.ctxOk then
        bgcAbort dims editorDims "Could not get 2D context for combined canvas."
      else
        let originalTl := dims Slot.topLeft
        let originalTr := dims Slot.topRight
        let originalBl := dims Slot.bottomLeft
        let originalBr := dims Slot.bottomRight
        let cardW := PRINT_PORTRAIT_WIDTH / 2
        let cardH := PRINT_PORTRAIT_HEIGHT / 2
        let dims1 := updateDims dims Slot.topLeft (cardW, cardH)
        let dims2 := updateDims dims1 Slot.topRight (cardW, cardH)
        let dims3 := updateDims dims2 Slot.bottomLeft (cardW, cardH)
        let dims4 := updateDims dims3 Slot.bottomRight (cardW, cardH)
        let tlCapture : StageCapture :=
          ⟨.slot .topLeft, (dims4 Slot.topLeft).1, (dims4 Slot.topLeft).2, 2⟩
        let trCapture : StageCapture :=
          ⟨.slot .topRight, (dims4 Slot.topRight).1, (dims4 Slot.topRight).2, 2⟩
        let blCapture : StageCapture :=
          ⟨.slot .bottomLeft, (dims4 Slot.bottomLeft).1,
            (dims4 Slot.bottomLeft).2, 2⟩
        let brCapture : StageCapture :=
          ⟨.slot .bottomRight, (dims4 Slot.bottomRight).1,
            (dims4 Slot.bottomRight).2, 2⟩
        let dims5 := updateDims dims4 Slot.topLeft originalTl
        let dims6 := updateDims dims5 Slot.topRight originalTr
        let dims7 := updateDims dims6 Slot.bottomLeft originalBl
        let dims8 := updateDims dims7 Slot.bottomRight originalBr
        { finalDims := dims8
          finalEditorDims := editorDims
          captures := [tlCapture, trCapture, blCapture, brCapture]
          canvasCleared := true
          draws :=
            [⟨.slot .topLeft, ⟨0, 0, cardW, cardH⟩⟩,
             ⟨.slot .topRight, ⟨cardW, 0, cardW, cardH⟩⟩,
             ⟨.slot .bottomLeft, ⟨0, cardH, cardW, cardH⟩⟩,
             ⟨.slot .bottomRight, ⟨cardW, cardH, cardW, cardH⟩⟩]
          diagnostics := [] }
  | .current =>
      if !env.editorStage then
        bgcAbort dims editorDims "Konva stage not ready for single print."
      else
        let originalWidth := editorDims.1
        let originalHeight := editorDims.2
        let newDims := (PRINT_ASPECT_RATIO_WIDTH, PRINT_ASPECT_RATIO_HEIGHT)
        let capture : StageCapture := ⟨.editor, newDims.1, newDims.2, 1⟩
        { finalDims := dims
          finalEditorDims := (originalWidth, originalHeight)
          captures := [capture]
          canvasCleared := false
          draws := []
          diagnostics := [] }

/-- The readiness checks onBeforeGetContent performs for a mode. -/
def bgcReady (mode : LayoutMode) (env : BgcEnv) : Bool :=
  match mode with
  | .twoByThree =>
      env.stageTopLeft && env.stageTopRight && env.combinedCanvas && env.ctxOk
  | .fourCards | .fourCardsPortrait =>
      env.stageTopLeft && env.stageTopRight && env.stageBottomLeft &&
        env.stageBottomRight && env.combinedCanvas && env.ctxOk
  | .current => env.editorStage

/-- The environment with every resource available (earlier revision). -/
def readyBgcEnv : BgcEnv :=
  { stageTopLeft := true
    stageTopRight := true
    stageBottomLeft := true
    stageBottomRight := true
    combinedCanvas := true
    ctxOk := true
    editorStage := true }

/-- The print card dimensions each stage is resized to per mode. -/
def printCardDims : LayoutMode → ℚ × ℚ
  | .current => (PRINT_ASPECT_RATIO_WIDTH, PRINT_ASPECT_RATIO_HEIGHT)
  | .twoByThree => (PRINT_ASPECT_RATIO_WIDTH / 2, PRINT_ASPECT_RATIO_HEIGHT)
  | .fourCards => (PRINT_ASPECT_RATIO_WIDTH / 2, PRINT_ASPECT_RATIO_HEIGHT / 2)
  | .fourCardsPortrait => (PRINT_PORTRAIT_WIDTH / 2, PRINT_PORTRAIT_HEIGHT / 2)

/-! ### C1: the destination rectangles partition the content rectangle -/

/-- Total area of the destination rectangles of the draw calls. -/
def sumRectAreas (draws : List DrawCmd) : ℚ :=
  (draws.map fun d => d.rect.w * d.rect.h).sum

/-- Area of the canvas region outside the content rectangle, decomposed
into full-width top and bottom strips plus content-height side strips. -/
def marginArea (R : PrepResult) : ℚ :=
  R.canvasWidth * R.content.y +
    R.canvasWidth * (R.canvasHeight - R.content.y - R.content.h) +
    R.content.h * R.content.x +
    R.content.h * (R.canvasWidth - R.content.x - R.content.w)

lemma halves_cover (mL mT cw ch : ℚ) (p : ℚ × ℚ) :
    InRect ⟨mL, mT, cw, ch⟩ p ↔
      InRect ⟨mL, mT, cw / 2, ch⟩ p ∨
        InRect ⟨mL + cw / 2, mT, cw / 2, ch⟩ p := by
  unfold InRect
  dsimp only
  constructor
  · rintro ⟨h1, h2, h3, h4⟩
    by_cases hx : p.1 < mL + cw / 2
    · exact Or.inl ⟨h1, hx, h3, h4⟩
    · exact Or.inr ⟨by linarith [not_lt.mp hx], by linarith, h3, h4⟩
  · rintro (⟨h1, h2, h3, h4⟩ | ⟨h1, h2, h3, h4⟩)
    · exact ⟨h1, by linarith, h3, h4⟩
    · exact ⟨by linarith, by linarith, h3, h4⟩

lemma quadrants_cover (mL mT cw ch : ℚ) (p : ℚ × ℚ) :
    InRect ⟨mL, mT, cw, ch⟩ p ↔
      InRect ⟨mL, mT, cw / 2, ch / 2⟩ p ∨
        InRect ⟨mL + cw / 2, mT, cw / 2, ch / 2⟩ p ∨
        InRect ⟨mL, mT + ch / 2, cw / 2, ch / 2⟩ p ∨
        InRect ⟨mL + cw / 2, mT + ch / 2, cw / 2, ch / 2⟩ p := by
  unfold InRect
  dsimp only
  constructor
  · rintro ⟨h1, h2, h3, h4⟩
    by_cases hx : p.1 < mL + cw / 2 <;> by_cases hy : p.2 < mT + ch / 2
    · exact Or.inl ⟨h1, hx, h3, hy⟩
    · exact Or.inr (Or.inr (Or.inl
        ⟨h1, hx, by linarith [not_lt.mp hy], by linarith⟩))
    · exact Or.inr (Or.inl
        ⟨by linarith [not_lt.mp hx], by linarith, h3, hy⟩)
    · exact Or.inr (Or.inr (Or.inr
        ⟨by linarith [not_lt.mp hx], by linarith,
         by linarith [not_lt.mp hy], by linarith⟩))
  · rintro (⟨h1, h2, h3, h4⟩ | ⟨h1, h2, h3, h4⟩ | ⟨h1, h2, h3, h4⟩ |
      ⟨h1, h2, h3, h4⟩) <;>
      exact ⟨by linarith, by linarith, by linarith, by linarith⟩

lemma separated_disjoint (r1 r2 : Rect)
    (h : r1.x + r1.w ≤ r2.x ∨ r2.x + r2.w ≤ r1.x ∨
      r1.y + r1.h ≤ r2.y ∨ r2.y + r2.h ≤ r1.y)
    (p : ℚ × ℚ) : ¬(InRect r1 p ∧ InRect r2 p) := by
  rintro ⟨⟨a1, a2, a3, a4⟩, b1, b2, b3, b4⟩
  rcases h with h | h | h | h <;> linarith

lemma preparePrintContent_twoByThree_eq (m : CanvasMargins) (env : PrepEnv)
    (hpc : env.printContainer = true) (hctx : env.ctxOk = true)
    (htl : env.stageTopLeft = true) (htr : env.stageTopRight = true) :
    preparePrintContent .twoByThree m env =
      { canvasWidth := PRINT_ASPECT_RATIO_WIDTH * 3
        canvasHeight := PRINT_ASPECT_RATIO_HEIGHT * 3
        content :=
          ⟨m.left * 3, m.top * 3,
           PRINT_ASPECT_RATIO_WIDTH * 3 - m.left * 3 - m.right * 3,
           PRINT_ASPECT_RATIO_HEIGHT * 3 - m.top * 3 - m.bottom * 3⟩
        captures := [⟨.slot .topLeft, 3⟩, ⟨.slot .topRight, 3⟩]
        draws :=
          [⟨.slot .topLeft,
              ⟨m.left * 3, m.top * 3,
               (PRINT_ASPECT_RATIO_WIDTH * 3 - m.left * 3 - m.right * 3) / 2,
               PRINT_ASPECT_RATIO_HEIGHT * 3 - m.top * 3 - m.bottom * 3⟩⟩,
           ⟨.slot .topRight,
              ⟨m.left * 3 +
                 (PRINT_ASPECT_RATIO_WIDTH * 3 - m.left * 3 - m.right * 3) / 2,
               m.top * 3,
               (PRINT_ASPECT_RATIO_WIDTH * 3 - m.left * 3 - m.right * 3) / 2,
               PRINT_ASPECT_RATIO_HEIGHT * 3 - m.top * 3 - m.bottom * 3⟩⟩]
        events :=
          [.issue (.slot .topLeft), .resolve (.slot .topLeft),
           .issue (.slot .topRight), .resolve (.slot .topRight),
           .draw (.slot .topLeft), .draw (.slot .topRight)]
        containerReplaced := true
        diagnostics := [] } := by
  simp [preparePrintContent, printSize, hpc, hctx, htl, htr]

lemma preparePrintContent_current_eq (m : CanvasMargins) (env : PrepEnv)
    (hpc : env.printContainer = true) (hctx : env.ctxOk = true)
    (hes : env.editorStage = true) :
    preparePrintContent .current m env =
      { canvasWidth := PRINT_ASPECT_RATIO_WIDTH * 3
        canvasHeight := PRINT_ASPECT_RATIO_HEIGHT * 3
        content :=
          ⟨m.left * 3, m.top * 3,
           PRINT_ASPECT_RATIO_WIDTH * 3 - m.left * 3 - m.right * 3,
           PRINT_ASPECT_RATIO_HEIGHT * 3 - m.top * 3 - m.bottom * 3⟩
        captures := [⟨.editor, 3⟩]
        draws :=
          [⟨.editor,
              ⟨m.left * 3, m.top * 3,
               PRINT_ASPECT_RATIO_WIDTH * 3 - m.left * 3 - m.right * 3,
               PRINT_ASPECT_RATIO_HEIGHT * 3 - m.top * 3 - m.bottom * 3⟩⟩]
        events := [.issue .editor, .resolve .editor, .draw .editor]
        containerReplaced := true
        diagnostics := [] } := by
  simp [preparePrintContent, printSize, hpc, hctx, hes]

lemma preparePrintContent_fourCards_eq (m : CanvasMargins) (env : PrepEnv)
    (hpc : env.printContainer = true) (hctx : env.ctxOk = true)
    (htl : env.stageTopLeft = true) (htr : env.stageTopRight = true)
    (hbl : env.stageBottomLeft = true) (hbr : env.stageBottomRight = true) :
    preparePrintContent .fourCards m env =
      { canvasWidth := PRINT_ASPECT_RATIO_WIDTH * 3
        canvasHeight := PRINT_ASPECT_RATIO_HEIGHT * 3
        content :=
          ⟨m.left * 3, m.top * 3,
           PRINT_ASPECT_RATIO_WIDTH * 3 - m.left * 3 - m.right * 3,
           PRINT_ASPECT_RATIO_HEIGHT * 3 - m.top * 3 - m.bottom * 3⟩
        captures :=
          [⟨.slot .topLeft, 3⟩, ⟨.slot .topRight, 3⟩,
           ⟨.slot .bottomLeft, 3⟩, ⟨.slot .bottomRight, 3⟩]
        draws :=
          [⟨.slot .topLeft,
              ⟨m.left * 3, m.top * 3,
               (PRINT_ASPECT_RATIO_WIDTH * 3 - m.left * 3 - m.right * 3) / 2,
               (PRINT_ASPECT_RATIO_HEIGHT * 3 - m.top * 3 - m.bottom * 3) / 2⟩⟩,
           ⟨.slot .topRight,
              ⟨m.left * 3 +
                 (PRINT_ASPECT_RATIO_WIDTH * 3 - m.left * 3 - m.right * 3) / 2,
               m.top * 3,
               (PRINT_ASPECT_RATIO_WIDTH * 3 - m.left * 3 - m.right * 3) / 2,
               (PRINT_ASPECT_RATIO_HEIGHT * 3 - m.top * 3 - m.bottom * 3) / 2⟩⟩,
           ⟨.slot .bottomLeft,
              ⟨m.left * 3,
               m.top * 3 +
                 (PRINT_ASPECT_RATIO_HEIGHT * 3 - m.top * 3 - m.bottom * 3) / 2,
               (PRINT_ASPECT_RATIO_WIDTH * 3 - m.left * 3 - m.right * 3) / 2,
               (PRINT_ASPECT_RATIO_HEIGHT * 3 - m.top * 3 - m.bottom * 3) / 2⟩⟩,
           ⟨.slot .bottomRight,
              ⟨m.left * 3 +
                 (PRINT_ASPECT_RATIO_WIDTH * 3 - m.left * 3 - m.right * 3) / 2,
               m.top * 3 +
                 (PRINT_ASPECT_RATIO_HEIGHT * 3 - m.top * 3 - m.bottom * 3) / 2,
               (PRINT_ASPECT_RATIO_WIDTH * 3 - m.left * 3 - m.right * 3) / 2,
               (PRINT_ASPECT_RATIO_HEIGHT * 3 - m.top * 3 - m.bottom * 3) / 2⟩⟩]
        events :=
          [.issue (.slot .topLeft), .resolve (.slot .topLeft),
           .issue (.slot .topRight), .resolve (.slot .topRight),
           .issue (.slot .bottomLeft), .resolve (.slot .bottomLeft),
           .issue (.slot .bottomRight), .resolve (.slot .bottomRight),
           .draw (.slot .topLeft), .draw (.slot .topRight),
           .draw (.slot .bottomLeft), .draw (.slot .bottomRight)]
        containerReplaced := true
        diagnostics := [] } := by
  simp [preparePrintContent, printSize, hpc, hctx, htl, htr, hbl, hbr]

lemma preparePrintContent_fourCardsPortrait_eq (m : CanvasMargins) (env : PrepEnv)
    (hpc : env.printContainer = true) (hctx : env.ctxOk = true)
    (htl : env.stageTopLeft = true) (htr : env.stageTopRight = true)
    (hbl : env.stageBottomLeft = true) (hbr : env.stageBottomRight = true) :
    preparePrintContent .fourCardsPortrait m env =
      { canvasWidth := PRINT_PORTRAIT_WIDTH * 3
        canvasHeight := PRINT_PORTRAIT_HEIGHT * 3
        content :=
          ⟨m.left * 3, m.top * 3,
           PRINT_PORTRAIT_WIDTH * 3 - m.left * 3 - m.right * 3,
           PRINT_PORTRAIT_HEIGHT * 3 - m.top * 3 - m.bottom * 3⟩
        captures :=
          [⟨.slot .topLeft, 3⟩, ⟨.slot .topRight, 3⟩,
           ⟨.slot .bottomLeft, 3⟩, ⟨.slot .bottomRight, 3⟩]
        draws :=
          [⟨.slot .topLeft,
              ⟨m.left * 3, m.top * 3,
               (PRINT_PORTRAIT_WIDTH * 3 - m.left * 3 - m.right * 3) / 2,
               (PRINT_PORTRAIT_HEIGHT * 3 - m.top * 3 - m.bottom * 3) / 2⟩⟩,
           ⟨.slot .topRight,
              ⟨m.left * 3 +
                 (PRINT_PORTRAIT_WIDTH * 3 - m.left * 3 - m.right * 3) / 2,
               m.top * 3,
               (PRINT_PORTRAIT_WIDTH * 3 - m.left * 3 - m.right * 3) / 2,
               (PRINT_PORTRAIT_HEIGHT * 3 - m.top * 3 - m.bottom * 3) / 2⟩⟩,
           ⟨.slot .bottomLeft,
              ⟨m.left * 3,
               m.top * 3 +
                 (PRINT_PORTRAIT_HEIGHT * 3 - m.top * 3 - m.bottom * 3) / 2,
               (PRINT_PORTRAIT_WIDTH * 3 - m.left * 3 - m.right * 3) / 2,
               (PRINT_PORTRAIT_HEIGHT * 3 - m.top * 3 - m.bottom * 3) / 2⟩⟩,
           ⟨.slot .bottomRight,
              ⟨m.left * 3 +
                 (PRINT_PORTRAIT_WIDTH * 3 - m.left * 3 - m.right * 3) / 2,
               m.top * 3 +
                 (PRINT_PORTRAIT_HEIGHT * 3 - m.top * 3 - m.bottom * 3) / 2,
               (PRINT_PORTRAIT_WIDTH * 3 - m.left * 3 - m.right * 3) / 2,
               (PRINT_PORTRAIT_HEIGHT * 3 - m.top * 3 - m.bottom * 3) / 2⟩⟩]
        events :=
          [.issue (.slot .topLeft), .resolve (.slot .topLeft),
           .issue (.slot .topRight), .resolve (.slot .topRight),
           .issue (.slot .bottomLeft), .resolve (.slot .bottomLeft),
           .issue (.slot .bottomRight), .resolve (.slot .bottomRight),
           .draw (.slot .topLeft), .draw (.slot .topRight),
           .draw (.slot .bottomLeft), .draw (.slot .bottomRight)]
        containerReplaced := true
        diagnostics := [] } := by
  simp [preparePrintContent, printSize, hpc, hctx, htl, htr, hbl, hbr]

/-- The partition property of one preparation result: the draw
destinations exactly cover the content rectangle without overlap, their
areas sum to the content area, and together with the margin area they
account for the whole combined canvas. -/
def PartitionSpec (R : PrepResult) : Prop :=
  (∀ p : ℚ × ℚ, InRect R.content p ↔ ∃ d ∈ R.draws, InRect d.rect p) ∧
  List.Pairwise (fun d e => ∀ p : ℚ × ℚ, ¬(InRect d.rect p ∧ InRect e.rect p))
    R.draws ∧
  sumRectAreas R.draws = R.content.w * R.content.h ∧
  sumRectAreas R.draws + marginArea R = R.canvasWidth * R.canvasHeight

/-- C1: for every layout mode and margins (non-negative, with horizontal
margins below the page width and vertical margins below the page height),
a ready print preparation partitions the multiplier-scaled content
rectangle into non-overlapping per-card destination rectangles that
exactly cover it, so destination areas plus margin area equal the total
combined-canvas area. -/
theorem preparePrint_partition (mode : LayoutMode) (m : CanvasMargins)
    (env : PrepEnv) (hready : prepReady mode env = true)
    (htop : 0 ≤ m.top) (hbottom : 0 ≤ m.bottom)
    (hleft : 0 ≤ m.left) (hright : 0 ≤ m.right)
    (hw : m.left + m.right < (printSize mode).1)
    (hh : m.top + m.bottom < (printSize mode).2) :
    PartitionSpec (preparePrintContent mode m env) := by
  cases mode with
  | current =>
      simp only [prepReady, Bool.and_eq_true] at hready
      obtain ⟨⟨hpc, hctx⟩, hes⟩ := hready
      rw [preparePrintContent_current_eq m env hpc hctx hes]
      refine ⟨?_, ?_, ?_, ?_⟩
      · intro p
        simp only [List.mem_cons, List.mem_singleton, List.not_mem_nil,
          or_false, exists_eq_or_imp, exists_eq_left]
      · exact List.pairwise_singleton _ _
      · simp only [sumRectAreas, List.map_cons, List.map_nil, List.sum_cons,
          List.sum_nil]
        ring
      · simp only [sumRectAreas, marginArea, List.map_cons, List.map_nil,
          List.sum_cons, List.sum_nil]
        ring
  | twoByThree =>
      simp only [prepReady, Bool.and_eq_true] at hready
      obtain ⟨⟨hpc, hctx⟩, htl, htr⟩ := hready
      rw [preparePrintContent_twoByThree_eq m env hpc hctx htl htr]
      refine ⟨?_, ?_, ?_, ?_⟩
      · intro p
        simp only [List.mem_cons, List.mem_singleton, List.not_mem_nil,
          or_false, exists_eq_or_imp, exists_eq_left]
        exact halves_cover _ _ _ _ p
      · refine List.Pairwise.cons ?_ (List.pairwise_singleton _ _)
        intro e he p
        rw [List.mem_singleton] at he
        subst he
        exact separated_disjoint _ _ (Or.inl (by dsimp only; linarith)) p
      · simp only [sumRectAreas, List.map_cons, List.map_nil, List.sum_cons,
          List.sum_nil]
        ring
      · simp only [sumRectAreas, marginArea, List.map_cons, List.map_nil,
          List.sum_cons, List.sum_nil]
        ring
  | fourCards =>
      simp only [prepReady, Bool.and_eq_true] at hready
      obtain ⟨⟨hpc, hctx⟩, ⟨⟨htl, htr⟩, hbl⟩, hbr⟩ := hready
      rw [preparePrintContent_fourCards_eq m env hpc hctx htl htr hbl hbr]
      refine ⟨?_, ?_, ?_, ?_⟩
      · intro p
        simp only [List.mem_cons, List.mem_singleton, List.not_mem_nil,
          or_false, exists_eq_or_imp, exists_eq_left]
        exact quadrants_cover _ _ _ _ p
      · refine List.Pairwise.cons ?_ (List.Pairwise.cons ?_
          (List.Pairwise.cons ?_ (List.pairwise_singleton _ _)))
        · intro e he p
          simp only [List.mem_cons, List.mem_singleton, List.not_mem_nil,
            or_false] at he
          rcases he with rfl | rfl | rfl
          · exact separated_disjoint _ _ (Or.inl (by dsimp only; linarith)) p
          · exact separated_disjoint _ _
              (Or.inr (Or.inr (Or.inl (by dsimp only; linarith)))) p
          · exact separated_disjoint _ _ (Or.inl (by dsimp only; linarith)) p
        · intro e he p
          simp only [List.mem_cons, List.mem_singleton, List.not_mem_nil,
            or_false] at he
          rcases he with rfl | rfl
          · exact separated_disjoint _ _
              (Or.inr (Or.inl (by dsimp only; linarith))) p
          · exact separated_disjoint _ _
              (Or.inr (Or.inr (Or.inl (by dsimp only; linarith)))) p
        · intro e he p
          rw [List.mem_singleton] at he
          subst he
          exact separated_disjoint _ _ (Or.inl (by dsimp only; linarith)) p
      · simp only [sumRectAreas, List.map_cons, List.map_nil, List.sum_cons,
          List.sum_nil]
        ring
      · simp only [sumRectAreas, marginArea, List.map_cons, List.map_nil,
          List.sum_cons, List.sum_nil]
        ring
  | fourCardsPortrait =>
      simp only [prepReady, Bool.and_eq_true] at hready
      obtain ⟨⟨hpc, hctx⟩, ⟨⟨htl, htr⟩, hbl⟩, hbr⟩ := hready
      rw [preparePrintContent_fourCardsPortrait_eq m env hpc hctx htl htr hbl hbr]
      refine ⟨?_, ?_, ?_, ?_⟩
      · intro p
        simp only [List.mem_cons, List.mem_singleton, List.not_mem_nil,
          or_false, exists_eq_or_imp, exists_eq_left]
        exact quadrants_cover _ _ _ _ p
      · refine List.Pairwise.cons ?_ (List.Pairwise.cons ?_
          (List.Pairwise.cons ?_ (List.pairwise_singleton _ _)))
        · intro e he p
          simp only [List.mem_cons, List.mem_singleton, List.not_mem_nil,
            or_false] at he
          rcases he with rfl | rfl | rfl
          · exact separated_disjoint _ _ (Or.inl (by dsimp only; linarith)) p
          · exact separated_disjoint _ _
              (Or.inr (Or.inr (Or.inl (by dsimp only; linarith)))) p
          · exact separated_disjoint _ _ (Or.inl (by dsimp only; linarith)) p
        · intro e he p
          simp only [List.mem_cons, List.mem_singleton, List.not_mem_nil,
            or_false] at he
          rcases he with rfl | rfl
          · exact separated_disjoint _ _
              (Or.inr (Or.inl (by dsimp only; linarith))) p
          · exact separated_disjoint _ _
              (Or.inr (Or.inr (Or.inl (by dsimp only; linarith)))) p
        · intro e he p
          rw [List.mem_singleton] at he
          subst he
          exact separated_disjoint _ _ (Or.inl (by dsimp only; linarith)) p
      · simp only [sumRectAreas, List.map_cons, List.map_nil, List.sum_cons,
          List.sum_nil]
        ring
      · simp only [sumRectAreas, marginArea, List.map_cons, List.map_nil,
          List.sum_cons, List.sum_nil]
        ring

/-- Witness for C1 at the spec example: canvas 600 x 400, margins
top 10, bottom 10, left 20, right 20, 2x3 layout. -/
theorem preparePrint_partition_witness :
    prepReady .twoByThree readyPrepEnv = true ∧
    (0 : ℚ) ≤ 10 ∧ (0 : ℚ) ≤ 20 ∧
    (20 : ℚ) + 20 < (printSize .twoByThree).1 ∧
    (10 : ℚ) + 10 < (printSize .twoByThree).2 ∧
    PartitionSpec
      (preparePrintContent .twoByThree ⟨10, 10, 20, 20⟩ readyPrepEnv) :=
  ⟨by decide, by norm_num, by norm_num,
   by norm_num [printSize, PRINT_ASPECT_RATIO_WIDTH],
   by norm_num [printSize, PRINT_ASPECT_RATIO_HEIGHT],
   preparePrint_partition .twoByThree ⟨10, 10, 20, 20⟩ readyPrepEnv
     (by decide) (by norm_num) (by norm_num) (by norm_num) (by norm_num)
     (by norm_num [printSize, PRINT_ASPECT_RATIO_WIDTH])
     (by norm_num [printSize, PRINT_ASPECT_RATIO_HEIGHT])⟩

/-! ### C2: capture/await/draw ordering in the preparation trace -/

def isIssue : PrintEvent → Bool
  | .issue _ => true
  | _ => false

def isResolve : PrintEvent → Bool
  | .resolve _ => true
  | _ => false

/-- All captures are issued before any of them is awaited: no issue event
may occur after a resolve event. -/
def allIssuedBeforeAnyResolve : List PrintEvent → Bool
  | [] => true
  | .resolve _ :: rest => rest.all fun e => ! isIssue e
  | _ :: rest => allIssuedBeforeAnyResolve rest

/-- Compositing starts only after every capture resolved: no issue or
resolve event occurs after any draw event. -/
def noCaptureAfterDraw : List PrintEvent → Bool
  | [] => true
  | .draw _ :: rest => rest.all fun e => !(isIssue e || isResolve e)
  | _ :: rest => noCaptureAfterDraw rest

/-- Counterexample for C2: in a ready 4-grid preparation the second
capture is issued only after the first await resolved — the captures are
awaited one after the other, not all issued before any await. -/
theorem fourCards_captures_awaited_serially :
    allIssuedBeforeAnyResolve
      (preparePrintContent .fourCards ⟨0, 0, 0, 0⟩ readyPrepEnv).events =
      false := by
  decide

/-- C2 (amended): the captures of a print preparation are issued and
awaited one after the other (each capture is issued only after the
previous one resolved), but no raster is drawn until every capture of the
job has resolved, and in the 4-grid modes the composited output contains
a draw for all four cards. -/
theorem compositing_after_all_captures (mode : LayoutMode) (m : CanvasMargins)
    (env : PrepEnv) (h : prepReady mode env = true) :
    noCaptureAfterDraw (preparePrintContent mode m env).events = true ∧
    ((mode = .fourCards ∨ mode = .fourCardsPortrait) →
      ∀ s : Slot,
        PrintEvent.draw (.slot s) ∈ (preparePrintContent mode m env).events) := by
  cases mode with
  | current =>
      simp only [prepReady, Bool.and_eq_true] at h
      obtain ⟨⟨hpc, hctx⟩, hes⟩ := h
      rw [preparePrintContent_current_eq m env hpc hctx hes]
      exact ⟨rfl,
        fun hmode => by rcases hmode with h | h <;> exact absurd h (by decide)⟩
  | twoByThree =>
      simp only [prepReady, Bool.and_eq_true] at h
      obtain ⟨⟨hpc, hctx⟩, htl, htr⟩ := h
      rw [preparePrintContent_twoByThree_eq m env hpc hctx htl htr]
      exact ⟨rfl,
        fun hmode => by rcases hmode with h | h <;> exact absurd h (by decide)⟩
  | fourCards =>
      simp only [prepReady, Bool.and_eq_true] at h
      obtain ⟨⟨hpc, hctx⟩, ⟨⟨htl, htr⟩, hbl⟩, hbr⟩ := h
      rw [preparePrintContent_fourCards_eq m env hpc hctx htl htr hbl hbr]
      exact ⟨rfl, fun _ s => by cases s <;> simp⟩
  | fourCardsPortrait =>
      simp only [prepReady, Bool.and_eq_true] at h
      obtain ⟨⟨hpc, hctx⟩, ⟨⟨htl, htr⟩, hbl⟩, hbr⟩ := h
      rw [preparePrintContent_fourCardsPortrait_eq m env hpc hctx htl htr hbl hbr]
      exact ⟨rfl, fun _ s => by cases s <;> simp⟩

/-- Witness for the amended C2 at a ready 4-grid preparation. -/
theorem compositing_after_all_captures_witness :
    prepReady .fourCards readyPrepEnv = true ∧
    (noCaptureAfterDraw
        (preparePrintContent .fourCards ⟨0, 0, 0, 0⟩ readyPrepEnv).events =
        true ∧
      ((LayoutMode.fourCards = .fourCards ∨
          LayoutMode.fourCards = .fourCardsPortrait) →
        ∀ s : Slot,
          PrintEvent.draw (.slot s) ∈
            (preparePrintContent .fourCards ⟨0, 0, 0, 0⟩ readyPrepEnv).events)) :=
  ⟨by decide,
   compositing_after_all_captures .fourCards ⟨0, 0, 0, 0⟩ readyPrepEnv (by decide)⟩

/-! ### C3: resolution multiplier -/

/-- Counterexample for C3: in the earlier revision the 2x3 print
preparation captures both stages at pixelRatio 2, not 3. -/
theorem onBeforeGetContent_captures_pixelRatio_two :
    ((onBeforeGetContent .twoByThree readyBgcEnv (fun _ => (300, 400))
          (600, 400)).captures.map fun c => c.pixelRatio) = [2, 2] ∧
      (2 : ℚ) ≠ 3 := by
  constructor
  · rfl
  · norm_num

/-- C3 (amended): in the later revision (preparePrintContent) every
capture of a ready preparation is performed at pixelRatio 3, and the
combined-canvas dimensions and margin insets are scaled by the same
multiplier 3; the earlier revision (onBeforeGetContent) instead captures
multi-card stages at pixelRatio 2, shown here on its 2x3 path. -/
theorem preparePrint_resolution (mode : LayoutMode) (m : CanvasMargins)
    (env : PrepEnv) (h : prepReady mode env = true) :
    (∀ c ∈ (preparePrintContent mode m env).captures, c.pixelRatio = 3) ∧
    (preparePrintContent mode m env).canvasWidth = (printSize mode).1 * 3 ∧
    (preparePrintContent mode m env).canvasHeight = (printSize mode).2 * 3 ∧
    (preparePrintContent mode m env).content =
      ⟨m.left * 3, m.top * 3,
       (printSize mode).1 * 3 - m.left * 3 - m.right * 3,
       (printSize mode).2 * 3 - m.top * 3 - m.bottom * 3⟩ ∧
    (∀ c ∈ (onBeforeGetContent .twoByThree readyBgcEnv (fun _ => (300, 400))
        (600, 400)).captures, c.pixelRatio = 2) := by
  have hbgc : ∀ c ∈ (onBeforeGetContent .twoByThree readyBgcEnv
      (fun _ => (300, 400)) (600, 400)).captures, c.pixelRatio = 2 := by
    intro c hc
    have hcap : (onBeforeGetContent .twoByThree readyBgcEnv
        (fun _ => (300, 400)) (600, 400)).captures =
        [⟨.slot .topLeft, PRINT_ASPECT_RATIO_WIDTH / 2,
            PRINT_ASPECT_RATIO_HEIGHT, 2⟩,
         ⟨.slot .topRight, PRINT_ASPECT_RATIO_WIDTH / 2,
            PRINT_ASPECT_RATIO_HEIGHT, 2⟩] := rfl
    rw [hcap] at hc
    simp only [List.mem_cons, List.mem_singleton, List.not_mem_nil,
      or_false] at hc
    rcases hc with rfl | rfl <;> rfl
  cases mode with
  | current =>
      simp only [prepReady, Bool.and_eq_true] at h
      obtain ⟨⟨hpc, hctx⟩, hes⟩ := h
      rw [preparePrintContent_current_eq m env hpc hctx hes]
      refine ⟨?_, rfl, rfl, rfl, hbgc⟩
      intro c hc
      rw [List.mem_singleton] at hc
      subst hc
      rfl
  | twoByThree =>
      simp only [prepReady, Bool.and_eq_true] at h
      obtain ⟨⟨hpc, hctx⟩, htl, htr⟩ := h
      rw [preparePrintContent_twoByThree_eq m env hpc hctx htl htr]
      refine ⟨?_, rfl, rfl, rfl, hbgc⟩
      intro c hc
      simp only [List.mem_cons, List.mem_singleton, List.not_mem_nil,
        or_false] at hc
      rcases hc with rfl | rfl <;> rfl
  | fourCards =>
      simp only [prepReady, Bool.and_eq_true] at h
      obtain ⟨⟨hpc, hctx⟩, ⟨⟨htl, htr⟩, hbl⟩, hbr⟩ := h
      rw [preparePrintContent_fourCards_eq m env hpc hctx htl htr hbl hbr]
      refine ⟨?_, rfl, rfl, rfl, hbgc⟩
      intro c hc
      simp only [List.mem_cons, List.mem_singleton, List.not_mem_nil,
        or_false] at hc
      rcases hc with rfl | rfl | rfl | rfl <;> rfl
  | fourCardsPortrait =>
      simp only [prepReady, Bool.and_eq_true] at h
      obtain ⟨⟨hpc, hctx⟩, ⟨⟨htl, htr⟩, hbl⟩, hbr⟩ := h
      rw [preparePrintContent_fourCardsPortrait_eq m env hpc hctx htl htr hbl hbr]
      refine ⟨?_, rfl, rfl, rfl, hbgc⟩
      intro c hc
      simp only [List.mem_cons, List.mem_singleton, List.not_mem_nil,
        or_false] at hc
      rcases hc with rfl | rfl | rfl | rfl <;> rfl

/-- Witness for the amended C3 at a ready 4-grid preparation with
concrete margins. -/
theorem preparePrint_resolution_witness :
    prepReady .fourCards readyPrepEnv = true ∧
    ((∀ c ∈ (preparePrintContent .fourCards ⟨1, 2, 3, 4⟩ readyPrepEnv).captures,
        c.pixelRatio = 3) ∧
      (preparePrintContent .fourCards ⟨1, 2, 3, 4⟩ readyPrepEnv).canvasWidth =
        (printSize .fourCards).1 * 3 ∧
      (preparePrintContent .fourCards ⟨1, 2, 3, 4⟩ readyPrepEnv).canvasHeight =
        (printSize .fourCards).2 * 3 ∧
      (preparePrintContent .fourCards ⟨1, 2, 3, 4⟩ readyPrepEnv).content =
        ⟨(3 : ℚ) * 3, (1 : ℚ) * 3,
         (printSize .fourCards).1 * 3 - (3 : ℚ) * 3 - (4 : ℚ) * 3,
         (printSize .fourCards).2 * 3 - (1 : ℚ) * 3 - (2 : ℚ) * 3⟩ ∧
      (∀ c ∈ (onBeforeGetContent .twoByThree readyBgcEnv (fun _ => (300, 400))
          (600, 400)).captures, c.pixelRatio = 2)) :=
  ⟨by decide,
   preparePrint_resolution .fourCards ⟨1, 2, 3, 4⟩ readyPrepEnv (by decide)⟩

/-! ### C8: abort behaviour when a resource is missing -/

/-- A 2x3-ready environment except that the top-left stage ref is null. -/
def missingLeftStagePrepEnv : PrepEnv :=
  { printContainer := true
    ctxOk := true
    stageTopLeft := false
    stageTopRight := true
    stageBottomLeft := true
    stageBottomRight := true
    editorStage := true }

/-- Counterexample for C8: when the top-left stage ref is missing, the
later revision aborts before compositing (nothing drawn, container not
replaced) but emits no diagnostic at all — the diagnostics list is empty,
contradicting the claimed operator-visible diagnostic. -/
theorem preparePrint_silent_abort :
    (preparePrintContent .twoByThree ⟨0, 0, 0, 0⟩
        missingLeftStagePrepEnv).containerReplaced = false ∧
    (preparePrintContent .twoByThree ⟨0, 0, 0, 0⟩
        missingLeftStagePrepEnv).draws = [] ∧
    (preparePrintContent .twoByThree ⟨0, 0, 0, 0⟩
        missingLeftStagePrepEnv).diagnostics = [] := by
  decide

lemma preparePrint_abort (mode : LayoutMode) (m : CanvasMargins) (env : PrepEnv)
    (h : prepReady mode env = false) :
    preparePrintContent mode m env = emptyPrepResult := by
  cases mode <;>
    cases hpc : env.printContainer <;> cases hctx : env.ctxOk <;>
    cases htl : env.stageTopLeft <;> cases htr : env.stageTopRight <;>
    cases hbl : env.stageBottomLeft <;> cases hbr : env.stageBottomRight <;>
    cases hes : env.editorStage <;>
    simp_all [preparePrintContent, prepReady]

lemma bgc_abort (mode : LayoutMode) (env : BgcEnv) (dims : Slot → ℚ × ℚ)
    (editorDims : ℚ × ℚ) (h : bgcReady mode env = false) :
    (onBeforeGetContent mode env dims editorDims).canvasCleared = false ∧
    (onBeforeGetContent mode env dims editorDims).draws = [] ∧
    (onBeforeGetContent mode env dims editorDims).captures = [] ∧
    (onBeforeGetContent mode env dims editorDims).finalDims = dims ∧
    (onBeforeGetContent mode env dims editorDims).finalEditorDims = editorDims ∧
    (onBeforeGetContent mode env dims editorDims).diagnostics ≠ [] := by
  cases mode <;>
    cases h1 : env.stageTopLeft <;> cases h2 : env.stageTopRight <;>
    cases h3 : env.stageBottomLeft <;> cases h4 : env.stageBottomRight <;>
    cases h5 : env.combinedCanvas <;> cases h6 : env.ctxOk <;>
    cases h7 : env.editorStage <;>
    simp_all [onBeforeGetContent, bgcReady, bgcAbort]

/-- C8 (amended): whenever a required surface reference (or the combined
canvas / print container / 2D context) is unavailable, both print
preparation revisions abort before any capture or compositing step: no
raster is captured or drawn, the container swap and canvas clear never
happen, and the stage dimensions are left untouched. The earlier revision
emits a console diagnostic; the later revision aborts silently, so the
claimed operator-visible diagnostic only exists in the earlier revision. -/
theorem abort_leaves_view_unchanged (mode : LayoutMode) (m : CanvasMargins)
    (env : PrepEnv) (benv : BgcEnv) (dims : Slot → ℚ × ℚ)
    (editorDims : ℚ × ℚ) (h1 : prepReady mode env = false)
    (h2 : bgcReady mode benv = false) :
    preparePrintContent mode m env = emptyPrepResult ∧
    (onBeforeGetContent mode benv dims editorDims).canvasCleared = false ∧
    (onBeforeGetContent mode benv dims editorDims).draws = [] ∧
    (onBeforeGetContent mode benv dims editorDims).captures = [] ∧
    (onBeforeGetContent mode benv dims editorDims).finalDims = dims ∧
    (onBeforeGetContent mode benv dims editorDims).finalEditorDims =
      editorDims ∧
    (onBeforeGetContent mode benv dims editorDims).diagnostics ≠ [] := by
  obtain ⟨ha, hb, hc, hd, he, hf⟩ := bgc_abort mode benv dims editorDims h2
  exact ⟨preparePrint_abort mode m env h1, ha, hb, hc, hd, he, hf⟩

/-- A 2x3 environment of the earlier revision missing the top-left stage. -/
def missingLeftStageBgcEnv : BgcEnv :=
  { stageTopLeft := false
    stageTopRight := true
    stageBottomLeft := true
    stageBottomRight := true
    combinedCanvas := true
    ctxOk := true
    editorStage := true }

/-- Witness for the amended C8 with the top-left stage missing in both
revisions, 2x3 layout. -/
theorem abort_leaves_view_unchanged_witness :
    prepReady .twoByThree missingLeftStagePrepEnv = false ∧
    bgcReady .twoByThree missingLeftStageBgcEnv = false ∧
    (preparePrintContent .twoByThree ⟨0, 0, 0, 0⟩ missingLeftStagePrepEnv =
        emptyPrepResult ∧
      (onBeforeGetContent .twoByThree missingLeftStageBgcEnv
          (fun _ => (300, 400)) (600, 400)).canvasCleared = false ∧
      (onBeforeGetContent .twoByThree missingLeftStageBgcEnv
          (fun _ => (300, 400)) (600, 400)).draws = [] ∧
      (onBeforeGetContent .twoByThree missingLeftStageBgcEnv
          (fun _ => (300, 400)) (600, 400)).captures = [] ∧
      (onBeforeGetContent .twoByThree missingLeftStageBgcEnv
          (fun _ => (300, 400)) (600, 400)).finalDims = (fun _ => (300, 400)) ∧
      (onBeforeGetContent .twoByThree missingLeftStageBgcEnv
          (fun _ => (300, 400)) (600, 400)).finalEditorDims = (600, 400) ∧
      (onBeforeGetContent .twoByThree missingLeftStageBgcEnv
          (fun _ => (300, 400)) (600, 400)).diagnostics ≠ []) :=
  ⟨by decide, by decide,
   abort_leaves_view_unchanged .twoByThree ⟨0, 0, 0, 0⟩
     missingLeftStagePrepEnv missingLeftStageBgcEnv (fun _ => (300, 400))
     (600, 400) (by decide) (by decide)⟩

/-! ### C10: stage dimensions restored after capture -/

/-- C10: a preparation of the earlier revision that passes the readiness
checks temporarily resizes each captured stage to the print card
dimensions of the layout mode — every capture sees exactly those
dimensions — and afterwards every stage width and height (including the
single-layout editor stage) is restored to exactly its value from before
the preparation. -/
theorem stage_dims_restored (mode : LayoutMode) (env : BgcEnv)
    (dims : Slot → ℚ × ℚ) (editorDims : ℚ × ℚ)
    (h : bgcReady mode env = true) :
    (onBeforeGetContent mode env dims editorDims).finalDims = dims ∧
    (onBeforeGetContent mode env dims editorDims).finalEditorDims =
      editorDims ∧
    ∀ c ∈ (onBeforeGetContent mode env dims editorDims).captures,
      (c.width, c.height) = printCardDims mode := by
  cases mode with
  | current =>
      simp only [bgcReady] at h
      refine ⟨?_, ?_, ?_⟩
      · simp [onBeforeGetContent, h]
      · simp [onBeforeGetContent, h]
      · intro c hc
        simp only [onBeforeGetContent, h, Bool.not_true] at hc
        simp only [Bool.false_eq_true, if_false, List.mem_singleton] at hc
        subst hc
        rfl
  | twoByThree =>
      simp only [bgcReady, Bool.and_eq_true] at h
      obtain ⟨⟨⟨htl, htr⟩, hcc⟩, hctx⟩ := h
      refine ⟨?_, ?_, ?_⟩
      · funext t
        cases t <;> simp [onBeforeGetContent, htl, htr, hcc, hctx, updateDims]
      · simp [onBeforeGetContent, htl, htr, hcc, hctx]
      · intro c hc
        simp only [onBeforeGetContent, htl, htr, hcc, hctx, Bool.and_self,
          Bool.not_true, Bool.false_eq_true, if_false, updateDims] at hc
        simp only [List.mem_cons, List.mem_singleton, List.not_mem_nil,
          or_false] at hc
        rcases hc with rfl | rfl <;> simp [printCardDims, updateDims]
  | fourCards =>
      simp only [bgcReady, Bool.and_eq_true] at h
      obtain ⟨⟨⟨⟨⟨htl, htr⟩, hbl⟩, hbr⟩, hcc⟩, hctx⟩ := h
      refine ⟨?_, ?_, ?_⟩
      · funext t
        cases t <;>
          simp [onBeforeGetContent, htl, htr, hbl, hbr, hcc, hctx, updateDims]
      · simp [onBeforeGetContent, htl, htr, hbl, hbr, hcc, hctx]
      · intro c hc
        simp only [onBeforeGetContent, htl, htr, hbl, hbr, hcc, hctx,
          Bool.and_self, Bool.not_true, Bool.false_eq_true, if_false,
          updateDims] at hc
        simp only [List.mem_cons, List.mem_singleton, List.not_mem_nil,
          or_false] at hc
        rcases hc with rfl | rfl | rfl | rfl <;>
          simp [printCardDims, updateDims]
  | fourCardsPortrait =>
      simp only [bgcReady, Bool.and_eq_true] at h
      obtain ⟨⟨⟨⟨⟨htl, htr⟩, hbl⟩, hbr⟩, hcc⟩, hctx⟩ := h
      refine ⟨?_, ?_, ?_⟩
      · funext t
        cases t <;>
          simp [onBeforeGetContent, htl, htr, hbl, hbr, hcc, hctx, updateDims]
      · simp [onBeforeGetContent, htl, htr, hbl, hbr, hcc, hctx]
      · intro c hc
        simp only [onBeforeGetContent, htl, htr, hbl, hbr, hcc, hctx,
          Bool.and_self, Bool.not_true, Bool.false_eq_true, if_false,
          updateDims] at hc
        simp only [List.mem_cons, List.mem_singleton, List.not_mem_nil,
          or_false] at hc
        rcases hc with rfl | rfl | rfl | rfl <;>
          simp [printCardDims, updateDims]

/-- Witness for C10: a ready 4-grid preparation over concrete screen
dimensions. -/
theorem stage_dims_restored_witness :
    bgcReady .fourCards readyBgcEnv = true ∧
    ((onBeforeGetContent .fourCards readyBgcEnv (fun _ => (300, 200))
        (600, 400)).finalDims = (fun _ => (300, 200)) ∧
      (onBeforeGetContent .fourCards readyBgcEnv (fun _ => (300, 200))
          (600, 400)).finalEditorDims = (600, 400) ∧
      ∀ c ∈ (onBeforeGetContent .fourCards readyBgcEnv (fun _ => (300, 200))
          (600, 400)).captures,
        (c.width, c.height) = printCardDims .fourCards) :=
  ⟨by decide,
   stage_dims_restored .fourCards readyBgcEnv (fun _ => (300, 200))
     (600, 400) (by decide)⟩
